import Mathlib

/-!
# Verification of the zsu-tmu-client traffic-prediction engine

Shallow embedding of the route-resolution, route-projection, time-grid and
occupancy-aggregation logic of the repository (src/src/App.tsx and
src/src/components/TJSJArrivals.tsx), with theorems settling the spec claims.

Conventions used throughout:
* JavaScript numbers are modelled as exact rationals (`ℚ`); machine floating
  point rounding is outside the model.
* Coordinates are `(latitude, longitude)` pairs of rationals.
* Transcendental geometry (the `Math.atan2`-based planar bearing, the
  haversine distance, the spherical direct-geodesic projection and the
  point-in-polygon test of the turf/leaflet libraries) is kept abstract: the
  embedded functions take these as explicit function parameters, so every
  theorem quantifies over them.  Where the source only *compares* two
  `Math.hypot` values, the embedding compares squared distances, which is
  equivalent because the square root is strictly monotone.
* JavaScript `Date` values are rational epoch-milliseconds.
-/

namespace ZSU

/-- A `(lat, lon)` coordinate pair. -/
abbrev Coord := ℚ × ℚ

/-- JavaScript's `%` operator for a nonnegative dividend and positive divisor:
`a % b = a - b * floor (a / b)`.  (For `a ≥ 0` JS truncated remainder and the
floor-based remainder agree.) -/
def jsMod (a b : ℚ) : ℚ := a - b * (⌊a / b⌋ : ℚ)

/-- JavaScript `String.split(sep)` restricted to a one-character separator, as
a structurally recursive function over the string's character list (the
logical model of `String`); consecutive separators yield empty pieces, as in JS. -/
def splitOnCharAux (sep : Char) : List Char → List Char → List String
  | [], acc => [⟨acc.reverse⟩]
  | c :: rest, acc =>
    if c = sep then ⟨acc.reverse⟩ :: splitOnCharAux sep rest []
    else splitOnCharAux sep rest (c :: acc)

/-- JavaScript `s.split(sep)` for a one-character separator. -/
def jsSplit (s : String) (sep : Char) : List String := splitOnCharAux sep s.data []

/-- JavaScript `s.trim()`: drop whitespace from both ends. -/
def jsTrim (s : String) : String :=
  ⟨((s.data.dropWhile Char.isWhitespace).reverse.dropWhile Char.isWhitespace).reverse⟩

/-- JavaScript `s.toUpperCase()` on the ASCII identifiers this program handles. -/
def jsUpper (s : String) : String := ⟨s.data.map Char.toUpper⟩

/-- `cleanFix` from the source: strip any `/speed-altitude` suffix
(`fix.split("/")[0]`), trim, upper-case. -/
def cleanFix (fix : String) : String := jsUpper (jsTrim ((jsSplit fix '/').headD ""))

/-- Is `c` an upper-case ASCII letter (regex class `[A-Z]`)? -/
def isUpperLetter (c : Char) : Bool := 'A' ≤ c && c ≤ 'Z'

/-- The regex `/^\d{2}[NS]\d{3}[EW]$/` (case sensitive), as used by the
`isValidFix` of `App.tsx`. -/
def coordShapeUpper : List Char → Bool
  | [d1, d2, h1, d3, d4, d5, h2] =>
    d1.isDigit && d2.isDigit && (h1 == 'N' || h1 == 'S') &&
      d3.isDigit && d4.isDigit && d5.isDigit && (h2 == 'E' || h2 == 'W')
  | _ => false

/-- `isValidFix` from `App.tsx`: `/^[A-Z]{3,6}$/.test(fix) || /^\d{2}[NS]\d{3}[EW]$/.test(fix)`. -/
def isValidFix (fix : String) : Bool :=
  (decide (3 ≤ fix.length) && decide (fix.length ≤ 6) && fix.toList.all isUpperLetter) ||
    coordShapeUpper fix.toList

/-- Numeric value of a decimal digit character. -/
def digitVal (c : Char) : ℚ := ((c.toNat - '0'.toNat : ℕ) : ℚ)

/-- `parseLatLonFix` from `App.tsx` (the two-digit/three-digit short form,
case-insensitive): `43N050W ↦ (43, -50)`. -/
def parseLatLonFix (fix : String) : Option Coord :=
  match fix.toList with
  | [d1, d2, h1, d3, d4, d5, h2] =>
    if d1.isDigit && d2.isDigit && (h1.toUpper == 'N' || h1.toUpper == 'S') &&
        d3.isDigit && d4.isDigit && d5.isDigit && (h2.toUpper == 'E' || h2.toUpper == 'W') then
      let lat : ℚ := 10 * digitVal d1 + digitVal d2
      let lon : ℚ := 100 * digitVal d3 + 10 * digitVal d4 + digitVal d5
      some (if h1.toUpper == 'S' then -lat else lat, if h2.toUpper == 'W' then -lon else lon)
    else none
  | _ => none

/-- A waypoint record of the static `routes.json` reference table, and also the
record type produced by `getRemainingRoute` (the source uses the same
`{order, waypoint, lat, lon}` shape for both). -/
structure Fix where
  order : ℤ
  waypoint : String
  lat : ℚ
  lon : ℚ
deriving Repr, DecidableEq

/-- Squared planar distance between two coordinates.  The source computes
`Math.hypot(a.lat - prev[0], a.lon - prev[1])` and only ever *compares* two
such values; comparing the squares is equivalent (`Real.sqrt` is strictly
monotone on nonnegatives) and keeps the definition executable. -/
def hypotSq (a p : Coord) : ℚ := (a.1 - p.1) ^ 2 + (a.2 - p.2) ^ 2

/-- The JavaScript `matches.reduce((a, b) => distA < distB ? a : b)` pattern:
fold that keeps the accumulator only when its distance is strictly smaller. -/
def jsReduceMin (d : α → ℚ) (x : α) (xs : List α) : α :=
  xs.foldl (fun a b => if d a < d b then a else b) x

/-- Minimum of `d` over the nonempty list `x :: xs` (specification-side helper). -/
def minDist (d : α → ℚ) (x : α) : List α → ℚ
  | [] => d x
  | b :: r => min (d x) (minDist d b r)

/-- Specification-side description of the tie-break the code implements: among
the candidates of `x :: xs` attaining the minimum distance, the *last* one in
table order. -/
def lastArgmin (d : α → ℚ) (x : α) (xs : List α) : Option α :=
  ((x :: xs).filter (fun c => decide (d c = minDist d x xs))).getLast?

theorem minDist_le (d : α → ℚ) (x : α) (xs : List α) :
    ∀ c ∈ x :: xs, minDist d x xs ≤ d c := by
  induction xs generalizing x with
  | nil => simp [minDist]
  | cons b r ih =>
    intro c hc
    rcases List.mem_cons.mp hc with h | h
    · subst h; exact min_le_left _ _
    · exact le_trans (min_le_right _ _) (ih b c h)

theorem minDist_mem (d : α → ℚ) (x : α) (xs : List α) :
    ∃ c ∈ x :: xs, d c = minDist d x xs := by
  induction xs generalizing x with
  | nil => exact ⟨x, by simp, rfl⟩
  | cons b r ih =>
    rcases le_total (d x) (minDist d b r) with h | h
    · exact ⟨x, by simp, by simp [minDist, min_eq_left h]⟩
    · obtain ⟨c, hc, hdc⟩ := ih b
      exact ⟨c, List.mem_cons_of_mem _ hc, by simp [minDist, min_eq_right h, hdc]⟩

theorem dist_ite (d : α → ℚ) (x b : α) :
    d (if d x < d b then x else b) = min (d x) (d b) := by
  by_cases h : d x < d b
  · simp [h, min_eq_left h.le]
  · simp [h, min_eq_right (not_lt.mp h)]

theorem minDist_step (d : α → ℚ) (x b : α) (r : List α) :
    minDist d (if d x < d b then x else b) r = min (d x) (minDist d b r) := by
  cases r with
  | nil => simpa [minDist] using dist_ite d x b
  | cons c r' =>
    show min (d (if d x < d b then x else b)) (minDist d c r')
        = min (d x) (min (d b) (minDist d c r'))
    rw [dist_ite d x b, min_assoc]

/-- The JS `reduce` tie-break characterised: it returns exactly the **last**
candidate (in table order) attaining the minimum distance. -/
theorem jsReduceMin_eq_lastArgmin (d : α → ℚ) (x : α) (xs : List α) :
    some (jsReduceMin d x xs) = lastArgmin d x xs := by
  induction xs generalizing x with
  | nil => simp [jsReduceMin, lastArgmin, minDist]
  | cons b r ih =>
    have hstep : jsReduceMin d x (b :: r) = jsReduceMin d (if d x < d b then x else b) r := rfl
    set s := if d x < d b then x else b with hs
    have hmin : minDist d x (b :: r) = minDist d s r := (minDist_step d x b r).symm
    set m := minDist d x (b :: r) with hm
    have hds : d s = min (d x) (d b) := dist_ite d x b
    rw [hstep, ih s]
    unfold lastArgmin
    rw [← hmin]
    by_cases hF : r.filter (fun c => decide (d c = m)) = []
    · -- no minimum attained inside `r`: the minimum is attained at `s` itself
      have hnotr : ∀ c ∈ r, ¬ d c = m := by
        intro c hc hval
        have : c ∈ r.filter (fun c => decide (d c = m)) := by
          simp [List.mem_filter, hc, hval]
        simp [hF] at this
      have hsm : d s = m := by
        obtain ⟨c, hc, hdc⟩ := minDist_mem d s r
        rw [← hmin] at hdc
        rcases List.mem_cons.mp hc with h | h
        · rw [h] at hdc; exact hdc
        · exact absurd hdc (hnotr c h)
      by_cases hxb : d x < d b
      · have hsx : s = x := by rw [hs, if_pos hxb]
        have hxm : d x = m := by rw [← hsx]; exact hsm
        have hbm : ¬ d b = m := by
          intro hcontr
          have hbx : d b = d x := hcontr.trans hxm.symm
          rw [hbx] at hxb
          exact lt_irrefl _ hxb
        simp [List.filter_cons, hsx, hxm, hbm, hF]
      · have hsb : s = b := by rw [hs, if_neg hxb]
        have hbm : d b = m := by rw [← hsb]; exact hsm
        by_cases hxm : d x = m
        · simp [List.filter_cons, hxm, hbm, hsb, hF]
        · simp [List.filter_cons, hxm, hbm, hsb, hF]
    · -- a minimum is attained inside `r`: the prefix is irrelevant
      have happ : ∀ l : List α, (l ++ r.filter (fun c => decide (d c = m))).getLast?
          = (r.filter (fun c => decide (d c = m))).getLast? :=
        fun l => List.getLast?_append_of_ne_nil l hF
      have h1 : ((x :: b :: r).filter (fun c => decide (d c = m))).getLast?
          = (r.filter (fun c => decide (d c = m))).getLast? := by
        rw [List.filter_cons, List.filter_cons]
        by_cases hx : d x = m
        · by_cases hb : d b = m
          · rw [if_pos (by simp [hx]), if_pos (by simp [hb])]; exact happ [x, b]
          · rw [if_pos (by simp [hx]), if_neg (by simp [hb])]; exact happ [x]
        · by_cases hb : d b = m
          · rw [if_neg (by simp [hx]), if_pos (by simp [hb])]; exact happ [b]
          · rw [if_neg (by simp [hx]), if_neg (by simp [hb])]
      have h2 : ((s :: r).filter (fun c => decide (d c = m))).getLast?
          = (r.filter (fun c => decide (d c = m))).getLast? := by
        rw [List.filter_cons]
        by_cases hsm : d s = m
        · rw [if_pos (by simp [hsm])]; exact happ [s]
        · rw [if_neg (by simp [hsm])]
      rw [h1, h2]

theorem jsReduceMin_mem (d : α → ℚ) (x : α) (xs : List α) :
    jsReduceMin d x xs ∈ x :: xs := by
  induction xs generalizing x with
  | nil => simp [jsReduceMin]
  | cons b r ih =>
    have hstep : jsReduceMin d x (b :: r) = jsReduceMin d (if d x < d b then x else b) r := rfl
    rw [hstep]
    rcases List.mem_cons.mp (ih (if d x < d b then x else b)) with h1 | h1
    · rw [h1]
      by_cases hc : d x < d b
      · simp [hc]
      · simp [hc]
    · exact List.mem_cons_of_mem _ (List.mem_cons_of_mem _ h1)

theorem jsReduceMin_minDist (d : α → ℚ) (x : α) (xs : List α) :
    d (jsReduceMin d x xs) = minDist d x xs := by
  induction xs generalizing x with
  | nil => rfl
  | cons b r ih =>
    show d (jsReduceMin d (if d x < d b then x else b) r) = minDist d x (b :: r)
    rw [ih, minDist_step]
    rfl

/-- `Fix`-specialised restatement of `jsReduceMin_minDist` (avoids a costly
universe-polymorphic unification at application sites). -/
theorem jsReduceMin_minDist_fix (d : Fix → ℚ) (x : Fix) (xs : List Fix) :
    d (jsReduceMin d x xs) = minDist d x xs := jsReduceMin_minDist d x xs

/-- `Fix`-specialised restatement of `minDist_le`. -/
theorem minDist_le_fix (d : Fix → ℚ) (x : Fix) (xs : List Fix) :
    ∀ c ∈ x :: xs, minDist d x xs ≤ d c := minDist_le d x xs

/-! ## Fix Resolver (`getFixCoord` of `App.tsx`, `getFixCoordAndName` of the
route-fetcher component) -/

/-- `getFixCoord` from `App.tsx`: coordinate-literal decode first, then table
lookup keyed by the normalised identifier (the source's `const clean =
cleanFix(fix)` is inlined), duplicate disambiguation by
nearest-to-previous-coordinate (planar `Math.hypot`), first candidate when a
single match or when no previous coordinate is supplied. -/
def getFixCoord (fix : String) (fixCoords : List (String × List Fix))
    (prev : Option Coord) : Option Coord :=
  match parseLatLonFix fix with
  | some c => some c
  | none =>
    match fixCoords.lookup (cleanFix fix) with
    | none => none
    | some [] => none
    | some (m :: ms) =>
      match prev with
      | none => some (m.lat, m.lon)
      | some p =>
        if ms.isEmpty then some (m.lat, m.lon)
        else
          let closest := jsReduceMin (fun f => hypotSq (f.lat, f.lon) p) m ms
          some (closest.lat, closest.lon)

/-- `parseLatLonFix` of the route-fetcher component: the same short form as
`App.tsx` (the two branches test disjoint string shapes, 7 vs 15 characters),
plus the long degree-minute-second form `205705N0655304W`. -/
def parseLatLonFixRF (fix : String) : Option Coord :=
  match parseLatLonFix fix with
  | some c => some c
  | none =>
    match fix.toList with
    | [a1, a2, b1, b2, c1, c2, h1, d1, d2, d3, e1, e2, f1, f2, h2] =>
      if a1.isDigit && a2.isDigit && b1.isDigit && b2.isDigit && c1.isDigit && c2.isDigit &&
          (h1.toUpper == 'N' || h1.toUpper == 'S') &&
          d1.isDigit && d2.isDigit && d3.isDigit && e1.isDigit && e2.isDigit &&
          f1.isDigit && f2.isDigit && (h2.toUpper == 'E' || h2.toUpper == 'W') then
        let lat : ℚ := (10 * digitVal a1 + digitVal a2) + (10 * digitVal b1 + digitVal b2) / 60
          + (10 * digitVal c1 + digitVal c2) / 3600
        let lon : ℚ := (100 * digitVal d1 + 10 * digitVal d2 + digitVal d3)
          + (10 * digitVal e1 + digitVal e2) / 60 + (10 * digitVal f1 + digitVal f2) / 3600
        some (if h1.toUpper == 'S' then -lat else lat, if h2.toUpper == 'W' then -lon else lon)
      else none
    | _ => none

/-- The resolved record of `getFixCoordAndName`. -/
structure FixNamed where
  coord : Coord
  name : String
deriving Repr, DecidableEq

/-- `Object.values(routesData).flat()`: the waypoint lists of every airway, in
table order, flattened. -/
def routesFlat (routesData : List (String × List Fix)) : List Fix :=
  (routesData.map Prod.snd).flatten

/-- `getFixCoordAndName` of the route-fetcher component.  `hav` abstracts the
transcendental `haversineDistance(prev, candidate)`. -/
def getFixCoordAndName (hav : Coord → Coord → ℚ) (routesData : List (String × List Fix))
    (fix : String) (prev : Option Coord) : Option FixNamed :=
  match parseLatLonFixRF fix with
  | some c => some ⟨c, cleanFix fix⟩
  | none =>
    match (routesFlat routesData).filter (fun wp => wp.waypoint == cleanFix fix) with
    | [] => none
    | m :: ms =>
      match prev with
      | none => some ⟨(m.lat, m.lon), m.waypoint⟩
      | some p =>
        if ms.isEmpty then some ⟨(m.lat, m.lon), m.waypoint⟩
        else
          let closest := jsReduceMin (fun f => hav p (f.lat, f.lon)) m ms
          some ⟨(closest.lat, closest.lon), closest.waypoint⟩

theorem getFixCoord_dup (fix : String) (table : List (String × List Fix)) (p : Coord)
    (m : Fix) (ms : List Fix)
    (hparse : parseLatLonFix fix = none)
    (hlook : table.lookup (cleanFix fix) = some (m :: ms))
    (hms : ms.isEmpty = false) :
    getFixCoord fix table (some p)
      = some ((jsReduceMin (fun f => hypotSq (f.lat, f.lon) p) m ms).lat,
              (jsReduceMin (fun f => hypotSq (f.lat, f.lon) p) m ms).lon) := by
  unfold getFixCoord
  rw [hparse, hlook]
  show (if ms.isEmpty = true then some (m.lat, m.lon)
    else some ((jsReduceMin (fun f => hypotSq (f.lat, f.lon) p) m ms).lat,
              (jsReduceMin (fun f => hypotSq (f.lat, f.lon) p) m ms).lon)) = _
  rw [hms]
  simp

theorem getFixCoord_noprev (fix : String) (table : List (String × List Fix))
    (m : Fix) (ms : List Fix)
    (hparse : parseLatLonFix fix = none)
    (hlook : table.lookup (cleanFix fix) = some (m :: ms)) :
    getFixCoord fix table none = some (m.lat, m.lon) := by
  unfold getFixCoord
  rw [hparse, hlook]

theorem getFixCoordAndName_dup (hav : Coord → Coord → ℚ) (rd : List (String × List Fix))
    (fix : String) (p : Coord) (m : Fix) (ms : List Fix)
    (hparse : parseLatLonFixRF fix = none)
    (hflt : (routesFlat rd).filter (fun wp => wp.waypoint == cleanFix fix) = m :: ms)
    (hms : ms.isEmpty = false) :
    getFixCoordAndName hav rd fix (some p)
      = some ⟨((jsReduceMin (fun f => hav p (f.lat, f.lon)) m ms).lat,
               (jsReduceMin (fun f => hav p (f.lat, f.lon)) m ms).lon),
              (jsReduceMin (fun f => hav p (f.lat, f.lon)) m ms).waypoint⟩ := by
  unfold getFixCoordAndName
  rw [hparse, hflt]
  show (if ms.isEmpty = true then some (⟨(m.lat, m.lon), m.waypoint⟩ : FixNamed)
    else some (⟨((jsReduceMin (fun f => hav p (f.lat, f.lon)) m ms).lat,
               (jsReduceMin (fun f => hav p (f.lat, f.lon)) m ms).lon),
              (jsReduceMin (fun f => hav p (f.lat, f.lon)) m ms).waypoint⟩ : FixNamed)) = _
  rw [hms]
  simp

theorem getFixCoordAndName_noprev (hav : Coord → Coord → ℚ) (rd : List (String × List Fix))
    (fix : String) (m : Fix) (ms : List Fix)
    (hparse : parseLatLonFixRF fix = none)
    (hflt : (routesFlat rd).filter (fun wp => wp.waypoint == cleanFix fix) = m :: ms) :
    getFixCoordAndName hav rd fix none = some ⟨(m.lat, m.lon), m.waypoint⟩ := by
  unfold getFixCoordAndName
  rw [hparse, hflt]

set_option maxHeartbeats 4000000 in
/-- C4 (amended): for a token with two or more records in the fix table, with a
previous coordinate both resolvers return the candidate at minimum distance to
it, equal distances resolving to the **last** such candidate in table order
(not the earliest); without a previous coordinate both return the first
candidate in table order. -/
theorem C4_duplicate_fix_resolution_latest_tie
    (fix : String) (table : List (String × List Fix)) (p : Coord)
    (m : Fix) (ms : List Fix)
    (hav : Coord → Coord → ℚ) (rd : List (String × List Fix)) (m' : Fix) (ms' : List Fix)
    (hparse : parseLatLonFix fix = none)
    (hlook : table.lookup (cleanFix fix) = some (m :: ms)) (hms : ms ≠ [])
    (hparseRF : parseLatLonFixRF fix = none)
    (hflt : (routesFlat rd).filter (fun wp => wp.waypoint == cleanFix fix) = m' :: ms')
    (hms' : ms' ≠ []) :
    (∃ c, lastArgmin (fun f => hypotSq (f.lat, f.lon) p) m ms = some c ∧
        getFixCoord fix table (some p) = some (c.lat, c.lon) ∧
        hypotSq (c.lat, c.lon) p = minDist (fun f => hypotSq (f.lat, f.lon) p) m ms) ∧
    (∀ f ∈ m :: ms, minDist (fun f => hypotSq (f.lat, f.lon) p) m ms ≤ hypotSq (f.lat, f.lon) p) ∧
    getFixCoord fix table none = some (m.lat, m.lon) ∧
    (∃ c, lastArgmin (fun f => hav p (f.lat, f.lon)) m' ms' = some c ∧
        getFixCoordAndName hav rd fix (some p) = some ⟨(c.lat, c.lon), c.waypoint⟩ ∧
        hav p (c.lat, c.lon) = minDist (fun f => hav p (f.lat, f.lon)) m' ms') ∧
    (∀ f ∈ m' :: ms', minDist (fun f => hav p (f.lat, f.lon)) m' ms' ≤ hav p (f.lat, f.lon)) ∧
    getFixCoordAndName hav rd fix none = some ⟨(m'.lat, m'.lon), m'.waypoint⟩ := by
  have hmsE : ms.isEmpty = false := by
    cases ms with
    | nil => exact absurd rfl hms
    | cons a t => rfl
  have hmsE' : ms'.isEmpty = false := by
    cases ms' with
    | nil => exact absurd rfl hms'
    | cons a t => rfl
  refine ⟨⟨jsReduceMin (fun f => hypotSq (f.lat, f.lon) p) m ms, ?_, ?_, ?_⟩, ?_, ?_,
    ⟨jsReduceMin (fun f => hav p (f.lat, f.lon)) m' ms', ?_, ?_, ?_⟩, ?_, ?_⟩
  · exact (jsReduceMin_eq_lastArgmin _ m ms).symm
  · exact getFixCoord_dup fix table p m ms hparse hlook hmsE
  · exact jsReduceMin_minDist_fix (fun g => hypotSq (g.lat, g.lon) p) m ms
  · intro f hf
    exact minDist_le_fix (fun g => hypotSq (g.lat, g.lon) p) m ms f hf
  · exact getFixCoord_noprev fix table m ms hparse hlook
  · exact (jsReduceMin_eq_lastArgmin _ m' ms').symm
  · exact getFixCoordAndName_dup hav rd fix p m' ms' hparseRF hflt hmsE'
  · exact jsReduceMin_minDist_fix (fun g => hav p (g.lat, g.lon)) m' ms'
  · intro f hf
    exact minDist_le_fix (fun g => hav p (g.lat, g.lon)) m' ms' f hf
  · exact getFixCoordAndName_noprev hav rd fix m' ms' hparseRF hflt

/-- Table for the C4 counterexample: identifier `AAA` occurs twice, at `(0, 1)`
and `(0, -1)`, both at squared distance 1 from the previous coordinate `(0, 0)`. -/
def c4Table : List (String × List Fix) :=
  [("AAA", [⟨1, "AAA", 0, 1⟩, ⟨2, "AAA", 0, -1⟩])]

/-- C4 counterexample: with duplicates at *equal* distance from the previous
coordinate, `getFixCoord` returns the second (last) candidate `(0, -1)`, not
the earliest candidate `(0, 1)` as the claim states. -/
theorem C4_earliest_tiebreak_counterexample :
    hypotSq ((0 : ℚ), (1 : ℚ)) ((0 : ℚ), (0 : ℚ)) = hypotSq ((0 : ℚ), (-1 : ℚ)) ((0 : ℚ), (0 : ℚ)) ∧
    getFixCoord "AAA" c4Table (some (0, 0)) = some ((0 : ℚ), (-1 : ℚ)) ∧
    ¬ getFixCoord "AAA" c4Table (some (0, 0)) = some ((0 : ℚ), (1 : ℚ)) := by
  have e1 : parseLatLonFix "AAA" = none := by decide
  have e2 : List.lookup (cleanFix "AAA") c4Table
      = some [⟨1, "AAA", 0, 1⟩, ⟨2, "AAA", 0, -1⟩] := by decide
  have hred : getFixCoord "AAA" c4Table (some (0, 0)) = some ((0 : ℚ), (-1 : ℚ)) := by
    simp only [getFixCoord, e1, e2, jsReduceMin, List.foldl, List.isEmpty, hypotSq]
    norm_num
  refine ⟨by norm_num [hypotSq], hred, ?_⟩
  rw [hred]
  decide

/-- Witness for `C4_duplicate_fix_resolution_latest_tie` at the concrete
two-candidate table. -/
theorem C4_duplicate_fix_resolution_latest_tie_witness :
    (∃ c : Fix, lastArgmin (fun f : Fix => hypotSq (f.lat, f.lon) ((0 : ℚ), (0 : ℚ)))
        ⟨1, "AAA", 0, 1⟩ [⟨2, "AAA", 0, -1⟩] = some c ∧
        getFixCoord "AAA" c4Table (some (0, 0)) = some (c.lat, c.lon) ∧
        hypotSq (c.lat, c.lon) (0, 0)
          = minDist (fun f : Fix => hypotSq (f.lat, f.lon) ((0 : ℚ), (0 : ℚ)))
              ⟨1, "AAA", 0, 1⟩ [⟨2, "AAA", 0, -1⟩]) ∧
    (∀ f ∈ [(⟨1, "AAA", 0, 1⟩ : Fix), ⟨2, "AAA", 0, -1⟩],
        minDist (fun f : Fix => hypotSq (f.lat, f.lon) ((0 : ℚ), (0 : ℚ)))
            ⟨1, "AAA", 0, 1⟩ [⟨2, "AAA", 0, -1⟩] ≤ hypotSq (f.lat, f.lon) (0, 0)) ∧
    getFixCoord "AAA" c4Table none = some ((0 : ℚ), (1 : ℚ)) ∧
    (∃ c : Fix, lastArgmin (fun f : Fix => hypotSq (f.lat, f.lon) ((0 : ℚ), (0 : ℚ)))
        ⟨1, "AAA", 0, 1⟩ [⟨2, "AAA", 0, -1⟩] = some c ∧
        getFixCoordAndName (fun p q => hypotSq q p) c4Table "AAA" (some (0, 0))
          = some ⟨(c.lat, c.lon), c.waypoint⟩ ∧
        hypotSq (c.lat, c.lon) (0, 0)
          = minDist (fun f : Fix => hypotSq (f.lat, f.lon) ((0 : ℚ), (0 : ℚ)))
              ⟨1, "AAA", 0, 1⟩ [⟨2, "AAA", 0, -1⟩]) ∧
    (∀ f ∈ [(⟨1, "AAA", 0, 1⟩ : Fix), ⟨2, "AAA", 0, -1⟩],
        minDist (fun f : Fix => hypotSq (f.lat, f.lon) ((0 : ℚ), (0 : ℚ)))
            ⟨1, "AAA", 0, 1⟩ [⟨2, "AAA", 0, -1⟩] ≤ hypotSq (f.lat, f.lon) (0, 0)) ∧
    getFixCoordAndName (fun p q => hypotSq q p) c4Table "AAA" none
      = some ⟨((0 : ℚ), (1 : ℚ)), "AAA"⟩ :=
  C4_duplicate_fix_resolution_latest_tie "AAA" c4Table ((0 : ℚ), (0 : ℚ))
    ⟨1, "AAA", 0, 1⟩ [⟨2, "AAA", 0, -1⟩] (fun p q => hypotSq q p) c4Table
    ⟨1, "AAA", 0, 1⟩ [⟨2, "AAA", 0, -1⟩]
    (by decide) (by decide) (by decide) (by decide) (by decide) (by decide)

/-! ## Time Grid (`roundToNext15` / `generateSlots`, three variants) -/

theorem jsMod_decomp (a b : ℚ) : a = b * (⌊a / b⌋ : ℚ) + jsMod a b := by
  unfold jsMod; ring

theorem jsMod_nonneg (a : ℚ) {b : ℚ} (hb : 0 < b) : 0 ≤ jsMod a b := by
  have h1 : ((⌊a / b⌋ : ℤ) : ℚ) ≤ a / b := Int.floor_le _
  have h2 : b * ((⌊a / b⌋ : ℤ) : ℚ) ≤ b * (a / b) :=
    mul_le_mul_of_nonneg_left h1 hb.le
  have h3 : b * (a / b) = a := by field_simp
  unfold jsMod
  linarith

theorem jsMod_lt (a : ℚ) {b : ℚ} (hb : 0 < b) : jsMod a b < b := by
  have h1 : a / b < (⌊a / b⌋ : ℚ) + 1 := Int.lt_floor_add_one _
  have h2 : b * (a / b) < b * ((⌊a / b⌋ : ℚ) + 1) := by
    exact mul_lt_mul_of_pos_left h1 hb
  have h3 : b * (a / b) = a := by field_simp
  unfold jsMod
  nlinarith

/-- `roundToNext15` (identical in `App.tsx` and the gate monitor): round an
epoch-millisecond instant up to the next 15-minute boundary
(`ms + (rem === 0 ? 0 : 15*60*1000 - rem)`). -/
def roundToNext15 (t : ℚ) : ℚ :=
  t + (if jsMod t (15 * 60 * 1000) = 0 then 0 else 15 * 60 * 1000 - jsMod t (15 * 60 * 1000))

/-- `generateSlots` from `App.tsx`: a `for (i = 0; i < hours * 4; i++)` loop
pushing `start + i * 15 * 60000`. -/
def generateSlots (start : ℚ) (hours : ℕ) : List ℚ :=
  (List.range (hours * 4)).map (fun (i : ℕ) => start + (i : ℚ) * 15 * 60000)

/-- The `while (cur < end)` slot loop of the gate monitor's `generateSlots`. -/
def genSlotsLoop (endT : ℚ) (cur : ℚ) : List ℚ :=
  if h : cur < endT then cur :: genSlotsLoop endT (cur + 15 * 60 * 1000)
  else []
termination_by (⌈(endT - cur) / 900000⌉).toNat
decreasing_by
  have h1 : (0 : ℚ) < (endT - cur) / 900000 := by
    apply div_pos (by linarith) (by norm_num)
  have h2 : ⌈(endT - (cur + 15 * 60 * 1000)) / 900000⌉ = ⌈(endT - cur) / 900000⌉ - 1 := by
    rw [show (endT - (cur + 15 * 60 * 1000)) / 900000 = (endT - cur) / 900000 - 1 by ring]
    exact_mod_cast Int.ceil_sub_one ((endT - cur) / 900000)
  have h3 : 0 < ⌈(endT - cur) / 900000⌉ := Int.ceil_pos.mpr h1
  simp only [h2]
  omega

/-- `generateSlots` from the gate monitor (`TJSJArrivals.tsx`, first
definition): slots every 15 minutes while `cur < start + totalHours * 3600 * 1000`. -/
def generateSlotsTJ (start : ℚ) (totalHours : ℕ) : List ℚ :=
  genSlotsLoop (start + (totalHours : ℚ) * 3600 * 1000) start

/-- `generateSlots` from the duplicated sector matrix in `TJSJArrivals.tsx`:
`base.setUTCMinutes(Math.floor(base.getUTCMinutes() / 15) * 15, 0, 0)` rounds
the start **down** to the previous 15-minute boundary — for an epoch-millisecond
instant this subtracts `t mod 900000` (15-minute boundaries sit on whole UTC
minutes and divide the hour) — then a `for` loop pushes `hours * 4` slots
15 minutes apart. -/
def generateSlotsTJ2 (start : ℚ) (hours : ℕ) : List ℚ :=
  (List.range (hours * 4)).map
    (fun (i : ℕ) => (start - jsMod start (15 * 60 * 1000)) + (i : ℚ) * 15 * 60000)

theorem genSlotsLoop_multiple : ∀ (k : ℕ) (c : ℚ),
    genSlotsLoop (c + (k : ℚ) * 900000) c
      = (List.range k).map (fun (i : ℕ) => c + (i : ℚ) * 15 * 60000) := by
  intro k
  induction k with
  | zero =>
    intro c
    rw [genSlotsLoop]
    norm_num
  | succ n ih =>
    intro c
    rw [genSlotsLoop]
    have hc : c < c + ((n : ℚ) + 1) * 900000 := by
      have : (0 : ℚ) < ((n : ℚ) + 1) * 900000 := by positivity
      linarith
    rw [dif_pos (by push_cast; linarith)]
    have harg : c + ((n + 1 : ℕ) : ℚ) * 900000
        = (c + 15 * 60 * 1000) + (n : ℚ) * 900000 := by push_cast; ring
    rw [harg, ih (c + 15 * 60 * 1000)]
    rw [List.range_succ_eq_map, List.map_cons, List.map_map]
    congr 1
    · norm_num
    · apply List.map_congr_left
      intro i _
      simp only [Function.comp]
      push_cast
      ring

theorem generateSlots_getD (start : ℚ) (h i : ℕ) (hi : i < h * 4) :
    (generateSlots start h).getD i 0 = start + (i : ℚ) * 15 * 60000 := by
  unfold generateSlots
  rw [List.getD_eq_getElem?_getD, List.getElem?_map, List.getElem?_range hi]
  rfl

theorem roundToNext15_ge (t : ℚ) : t ≤ roundToNext15 t := by
  unfold roundToNext15
  by_cases h : jsMod t (15 * 60 * 1000) = 0
  · simp [h]
  · have h1 : jsMod t (15 * 60 * 1000) < 15 * 60 * 1000 := jsMod_lt t (by norm_num)
    simp only [h, if_false]
    linarith

theorem roundToNext15_sub_lt (t : ℚ) : roundToNext15 t - t < 15 * 60000 := by
  unfold roundToNext15
  by_cases h : jsMod t (15 * 60 * 1000) = 0
  · simp [h]
  · have h0 : 0 ≤ jsMod t (15 * 60 * 1000) := jsMod_nonneg t (by norm_num)
    have h1 : jsMod t (15 * 60 * 1000) ≠ 0 := h
    have h2 : 0 < jsMod t (15 * 60 * 1000) := lt_of_le_of_ne h0 (Ne.symm h1)
    simp only [h, if_false]
    linarith

theorem roundToNext15_aligned (t : ℚ) : ∃ k : ℤ, roundToNext15 t = 900000 * k := by
  have hdec := jsMod_decomp t (15 * 60 * 1000)
  unfold roundToNext15
  by_cases h : jsMod t (15 * 60 * 1000) = 0
  · refine ⟨⌊t / (15 * 60 * 1000)⌋, ?_⟩
    rw [h] at hdec
    rw [if_pos h]
    norm_num
    linarith [hdec]
  · refine ⟨⌊t / (15 * 60 * 1000)⌋ + 1, ?_⟩
    rw [if_neg h]
    push_cast
    linarith [hdec]

theorem floorBase_aligned (t : ℚ) :
    ∃ k : ℤ, t - jsMod t (15 * 60 * 1000) = 900000 * k := by
  refine ⟨⌊t / (15 * 60 * 1000)⌋, ?_⟩
  have hdec := jsMod_decomp t (15 * 60 * 1000)
  norm_num
  linarith [hdec]

/-- C3 (amended): the slot grids of `App.tsx` and of the gate monitor consist
of exactly `4h` slots, 15 minutes apart, aligned to 15-minute boundaries, with
the first slot equal to `t` rounded **up** (`first ≥ t`, `first − t < 15 min`);
the duplicated sector grid in `TJSJArrivals.tsx` instead rounds the start
**down** to the previous boundary (`first ≤ t`, `t − first < 15 min`), with the
same count, spacing and alignment.  (`0 ≤ t` records that epoch timestamps are
nonnegative, which is what makes the floor-based model of the JS `%` faithful.) -/
theorem C3_time_grid (t : ℚ) (ht : 0 ≤ t) (h : ℕ) :
    (generateSlots (roundToNext15 t) h).length = 4 * h ∧
    generateSlotsTJ (roundToNext15 t) h = generateSlots (roundToNext15 t) h ∧
    (∀ i : ℕ, i < h * 4 → (generateSlots (roundToNext15 t) h).getD i 0
        = roundToNext15 t + (i : ℚ) * 15 * 60000) ∧
    t ≤ roundToNext15 t ∧ roundToNext15 t - t < 15 * 60000 ∧
    (∃ k : ℤ, roundToNext15 t = 900000 * k) ∧
    (generateSlotsTJ2 t h).length = 4 * h ∧
    (∀ i : ℕ, i < h * 4 → (generateSlotsTJ2 t h).getD i 0
        = (t - jsMod t (15 * 60 * 1000)) + (i : ℚ) * 15 * 60000) ∧
    t - jsMod t (15 * 60 * 1000) ≤ t ∧
    t - (t - jsMod t (15 * 60 * 1000)) < 15 * 60000 ∧
    (∃ k : ℤ, t - jsMod t (15 * 60 * 1000) = 900000 * k) := by
  have hlen : (generateSlots (roundToNext15 t) h).length = 4 * h := by
    unfold generateSlots
    rw [List.length_map, List.length_range, Nat.mul_comm]
  refine ⟨hlen, ?_, ?_, roundToNext15_ge t, roundToNext15_sub_lt t,
    roundToNext15_aligned t, ?_, ?_, ?_, ?_, floorBase_aligned t⟩
  · unfold generateSlotsTJ generateSlots
    have harg : roundToNext15 t + (h : ℚ) * 3600 * 1000
        = roundToNext15 t + ((h * 4 : ℕ) : ℚ) * 900000 := by push_cast; ring
    rw [harg, genSlotsLoop_multiple (h * 4) (roundToNext15 t)]
  · intro i hi
    exact generateSlots_getD (roundToNext15 t) h i hi
  · unfold generateSlotsTJ2
    rw [List.length_map, List.length_range, Nat.mul_comm]
  · intro i hi
    unfold generateSlotsTJ2
    rw [List.getD_eq_getElem?_getD, List.getElem?_map, List.getElem?_range hi]
    rfl
  · have := jsMod_nonneg t (b := 15 * 60 * 1000) (by norm_num)
    linarith
  · have := jsMod_lt t (b := 15 * 60 * 1000) (by norm_num)
    linarith

/-- C3 counterexample: at `t` one minute past a boundary, the duplicated
sector grid's first slot is the *previous* boundary (here `0`), not
`roundToNext15 t = 900000`, and in particular is smaller than `t` — the
claim's "first slot ≥ t, rounded up" fails for that variant. -/
theorem C3_round_up_counterexample :
    (generateSlotsTJ2 60000 1).headD 0 = 0 ∧
    roundToNext15 60000 = 900000 ∧
    ¬ ((60000 : ℚ) ≤ (generateSlotsTJ2 60000 1).headD 0) := by
  have hfloor : ⌊(60000 : ℚ) / (15 * 60 * 1000)⌋ = 0 := by
    rw [Int.floor_eq_zero_iff]
    constructor <;> norm_num
  have hmod : jsMod 60000 (15 * 60 * 1000) = 60000 := by
    unfold jsMod
    rw [hfloor]
    norm_num
  have hhead : (generateSlotsTJ2 60000 1).headD 0 = 0 := by
    unfold generateSlotsTJ2
    rw [hmod]
    norm_num [List.range_succ]
  refine ⟨hhead, ?_, ?_⟩
  · unfold roundToNext15
    rw [hmod]
    norm_num
  · rw [hhead]
    norm_num

/-- Witness for `C3_time_grid` at `t = 60000`, `h = 1`. -/
theorem C3_time_grid_witness :
    (0 : ℚ) ≤ 60000 ∧
    ((generateSlots (roundToNext15 60000) 1).length = 4 * 1 ∧
    generateSlotsTJ (roundToNext15 60000) 1 = generateSlots (roundToNext15 60000) 1 ∧
    (∀ i : ℕ, i < 1 * 4 → (generateSlots (roundToNext15 60000) 1).getD i 0
        = roundToNext15 60000 + (i : ℚ) * 15 * 60000) ∧
    (60000 : ℚ) ≤ roundToNext15 60000 ∧ roundToNext15 60000 - 60000 < 15 * 60000 ∧
    (∃ k : ℤ, roundToNext15 60000 = 900000 * k) ∧
    (generateSlotsTJ2 60000 1).length = 4 * 1 ∧
    (∀ i : ℕ, i < 1 * 4 → (generateSlotsTJ2 60000 1).getD i 0
        = ((60000 : ℚ) - jsMod 60000 (15 * 60 * 1000)) + (i : ℚ) * 15 * 60000) ∧
    (60000 : ℚ) - jsMod 60000 (15 * 60 * 1000) ≤ 60000 ∧
    (60000 : ℚ) - (60000 - jsMod 60000 (15 * 60 * 1000)) < 15 * 60000 ∧
    (∃ k : ℤ, (60000 : ℚ) - jsMod 60000 (15 * 60 * 1000) = 900000 * k)) :=
  ⟨by norm_num, C3_time_grid 60000 (by norm_num) 1⟩

/-! ## Threshold classification (`getCellColor`, three variants) -/

/-- `getCellColor` (identical in `App.tsx` and in the gate monitor): count
vs. limit classification, returning the CSS class string. -/
def getCellColor (val limit : ℚ) : String :=
  if val > limit then "bg-red-600 text-white"
  else if val ≥ limit * 0.75 then "bg-yellow-500 text-black"
  else "bg-green-600 text-white"

/-- `SECTOR_LIMITS` from the duplicated sector matrix in `TJSJArrivals.tsx`. -/
def SECTOR_LIMITS : List (String × ℚ) :=
  [("Sector 1", 10), ("Sector 2", 20), ("Sector 3", 15), ("Sector 4", 30),
   ("Sector 5", 10), ("Sector 6", 25), ("Sector 7", 15), ("Sector 8", 30),
   ("Sector 9", 5)]

/-- `getCellColor` from the duplicated sector matrix in `TJSJArrivals.tsx`:
`SECTOR_LIMITS[sector] || 10` (all table limits are nonzero, so `||` is just
the missing-key default) and near-limit ratio **0.7**. -/
def getCellColorTJ2 (sector : String) (val : ℚ) : String :=
  let mx := (SECTOR_LIMITS.lookup sector).getD 10
  if val > mx then "bg-red-600 text-white"
  else if val ≥ mx * 0.7 then "bg-yellow-500 text-black"
  else "bg-green-600 text-white"

theorem getCellColor_red_iff (v L : ℚ) :
    getCellColor v L = "bg-red-600 text-white" ↔ L < v := by
  unfold getCellColor
  split_ifs with h1 h2
  · exact ⟨fun _ => h1, fun _ => rfl⟩
  · exact ⟨fun hstr => absurd hstr (by decide), fun hlt => absurd hlt h1⟩
  · exact ⟨fun hstr => absurd hstr (by decide), fun hlt => absurd hlt h1⟩

theorem getCellColor_yellow_iff (v L : ℚ) :
    getCellColor v L = "bg-yellow-500 text-black" ↔ v ≤ L ∧ 0.75 * L ≤ v := by
  unfold getCellColor
  split_ifs with h1 h2
  · exact ⟨fun hstr => absurd hstr (by decide),
      fun hc => absurd h1 (not_lt.mpr hc.1)⟩
  · exact ⟨fun _ => ⟨not_lt.mp h1, by linarith⟩, fun _ => rfl⟩
  · exact ⟨fun hstr => absurd hstr (by decide),
      fun hc => absurd (by linarith [hc.2] : v ≥ L * 0.75) h2⟩

theorem getCellColor_green_iff (v L : ℚ) :
    getCellColor v L = "bg-green-600 text-white" ↔ v ≤ L ∧ v < 0.75 * L := by
  unfold getCellColor
  split_ifs with h1 h2
  · exact ⟨fun hstr => absurd hstr (by decide),
      fun hc => absurd h1 (not_lt.mpr hc.1)⟩
  · exact ⟨fun hstr => absurd hstr (by decide),
      fun hc => absurd (by linarith [hc.2] : ¬ v ≥ L * 0.75) (fun hcon => hcon h2)⟩
  · exact ⟨fun _ => ⟨not_lt.mp h1, by linarith [not_le.mp h2]⟩, fun _ => rfl⟩

theorem getCellColorTJ2_known (sector : String) (mx v : ℚ)
    (hsec : SECTOR_LIMITS.lookup sector = some mx) :
    (getCellColorTJ2 sector v = "bg-red-600 text-white" ↔ mx < v) ∧
    (getCellColorTJ2 sector v = "bg-yellow-500 text-black" ↔ v ≤ mx ∧ 0.7 * mx ≤ v) ∧
    (getCellColorTJ2 sector v = "bg-green-600 text-white" ↔ v ≤ mx ∧ v < 0.7 * mx) := by
  unfold getCellColorTJ2
  rw [hsec]
  simp only [Option.getD_some]
  refine ⟨?_, ?_, ?_⟩ <;> split_ifs with h1 h2
  · exact ⟨fun _ => h1, fun _ => rfl⟩
  · exact ⟨fun hstr => absurd hstr (by decide), fun hlt => absurd hlt h1⟩
  · exact ⟨fun hstr => absurd hstr (by decide), fun hlt => absurd hlt h1⟩
  · exact ⟨fun hstr => absurd hstr (by decide),
      fun hc => absurd h1 (not_lt.mpr hc.1)⟩
  · exact ⟨fun _ => ⟨not_lt.mp h1, by linarith⟩, fun _ => rfl⟩
  · exact ⟨fun hstr => absurd hstr (by decide),
      fun hc => absurd (by linarith [hc.2] : v ≥ mx * 0.7) h2⟩
  · exact ⟨fun hstr => absurd hstr (by decide),
      fun hc => absurd h1 (not_lt.mpr hc.1)⟩
  · exact ⟨fun hstr => absurd hstr (by decide),
      fun hc => absurd (not_le.mpr (by linarith [hc.2])) (fun hcon => hcon h2)⟩
  · exact ⟨fun _ => ⟨not_lt.mp h1, by linarith [not_le.mp h2]⟩, fun _ => rfl⟩

/-- C5 (amended): the `getCellColor` shared by `App.tsx` and the gate monitor
classifies with the 0.75 ratio exactly as the claim states (exceeded iff
`count > limit`, near-limit iff `count ≤ limit ∧ count ≥ 0.75·limit`, ok
otherwise); the `getCellColor` of the duplicated sector matrix in
`TJSJArrivals.tsx` instead uses ratio **0.7** (and a limit table with default
10), so the two sector matrices do not share the 0.75 ratio. -/
theorem C5_threshold_classification (v L : ℚ) (sector : String) (mx : ℚ)
    (hsec : SECTOR_LIMITS.lookup sector = some mx) :
    (getCellColor v L = "bg-red-600 text-white" ↔ L < v) ∧
    (getCellColor v L = "bg-yellow-500 text-black" ↔ v ≤ L ∧ 0.75 * L ≤ v) ∧
    (getCellColor v L = "bg-green-600 text-white" ↔ v ≤ L ∧ v < 0.75 * L) ∧
    (getCellColorTJ2 sector v = "bg-red-600 text-white" ↔ mx < v) ∧
    (getCellColorTJ2 sector v = "bg-yellow-500 text-black" ↔ v ≤ mx ∧ 0.7 * mx ≤ v) ∧
    (getCellColorTJ2 sector v = "bg-green-600 text-white" ↔ v ≤ mx ∧ v < 0.7 * mx) := by
  obtain ⟨h1, h2, h3⟩ := getCellColorTJ2_known sector mx v hsec
  exact ⟨getCellColor_red_iff v L, getCellColor_yellow_iff v L,
    getCellColor_green_iff v L, h1, h2, h3⟩

/-- C5 counterexample: at count 7 against `Sector 1`'s limit 10, the
duplicated sector matrix classifies **near-limit** (7 ≥ 0.7·10) although
7 < 0.75·10, while the 0.75-based `getCellColor` classifies **ok** — the two
matrices do not use the same ratio, contradicting the claim. -/
theorem C5_ratio_counterexample :
    getCellColorTJ2 "Sector 1" 7 = "bg-yellow-500 text-black" ∧
    ¬ ((7 : ℚ) ≥ 0.75 * 10) ∧
    getCellColor 7 10 = "bg-green-600 text-white" := by
  have hsec : SECTOR_LIMITS.lookup "Sector 1" = some 10 := by decide
  refine ⟨?_, by norm_num, ?_⟩
  · exact ((getCellColorTJ2_known "Sector 1" 10 7 hsec).2.1).mpr ⟨by norm_num, by norm_num⟩
  · exact (getCellColor_green_iff 7 10).mpr ⟨by norm_num, by norm_num⟩

/-- Witness for `C5_threshold_classification` at `v = 7`, `L = 10`,
sector `Sector 1`. -/
theorem C5_threshold_classification_witness :
    (getCellColor 7 10 = "bg-red-600 text-white" ↔ (10 : ℚ) < 7) ∧
    (getCellColor 7 10 = "bg-yellow-500 text-black" ↔ (7 : ℚ) ≤ 10 ∧ (0.75 : ℚ) * 10 ≤ 7) ∧
    (getCellColor 7 10 = "bg-green-600 text-white" ↔ (7 : ℚ) ≤ 10 ∧ (7 : ℚ) < (0.75 : ℚ) * 10) ∧
    (getCellColorTJ2 "Sector 1" 7 = "bg-red-600 text-white" ↔ (10 : ℚ) < 7) ∧
    (getCellColorTJ2 "Sector 1" 7 = "bg-yellow-500 text-black" ↔ (7 : ℚ) ≤ 10 ∧ (0.7 : ℚ) * 10 ≤ 7) ∧
    (getCellColorTJ2 "Sector 1" 7 = "bg-green-600 text-white" ↔ (7 : ℚ) ≤ 10 ∧ (7 : ℚ) < (0.7 : ℚ) * 10) :=
  C5_threshold_classification 7 10 "Sector 1" 10 (by decide)

/-! ## Route Projector (`getRemainingRoute` of `App.tsx`) -/

/-- The optional flight plan of a telemetry record. -/
structure FlightPlan where
  route : Option String
  arrival : Option String
  departure : Option String
deriving Repr, DecidableEq

/-- An aircraft telemetry record (`Aircraft` interface of `App.tsx`). -/
structure Aircraft where
  callsign : String
  latitude : ℚ
  longitude : ℚ
  altitude : ℚ
  heading : ℚ
  groundspeed : ℚ
  flight_plan : Option FlightPlan
deriving Repr, DecidableEq

/-- The heading test of `getRemainingRoute`:
`Math.abs(ac.heading - bearingToFix) % 360`, then `≤ 30 || ≥ 330`. -/
def headingTestApp (heading bearing : ℚ) : Bool :=
  decide (jsMod |heading - bearing| 360 ≤ 30) || decide (330 ≤ jsMod |heading - bearing| 360)

/-- The circular (folded to ≤ 180°) distance between two angles, as the spec
words it: difference taken modulo 360 and folded. -/
def circDist (x : ℚ) : ℚ := min (jsMod |x| 360) (360 - jsMod |x| 360)

/-- The spec-side heading-match predicate: circular distance within 30°. -/
def headingMatchSpec (heading bearing : ℚ) : Bool :=
  decide (circDist (heading - bearing) ≤ 30)

/-- The code's raw `%`-based test agrees with the spec's folded circular
distance, for all headings and bearings. -/
theorem headingTestApp_eq_spec (h b : ℚ) : headingTestApp h b = headingMatchSpec h b := by
  unfold headingTestApp headingMatchSpec circDist
  set d := jsMod |h - b| 360 with hd
  have key : (min d (360 - d) ≤ 30) ↔ (d ≤ 30 ∨ 330 ≤ d) := by
    rw [min_le_iff]
    constructor
    · rintro (hx | hx)
      · exact Or.inl hx
      · exact Or.inr (by linarith)
    · rintro (hx | hx)
      · exact Or.inl hx
      · exact Or.inr (by linarith)
  rw [show (decide (min d (360 - d) ≤ 30)) = decide (d ≤ 30 ∨ 330 ≤ d) from
    decide_eq_decide.mpr key, Bool.decide_or]

/-- The main loop of `getRemainingRoute`.  `atan2deg` abstracts
`Math.atan2(y, x) * (180 / Math.PI)`; `n` is `fixes.length` so far (the kept
fixes are numbered `fixes.length + 1` by the source). -/
def remRouteLoop (atan2deg : ℚ → ℚ → ℚ) (fixCoords : List (String × List Fix))
    (heading : ℚ) : List String → Coord → Bool → ℕ → List Fix
  | [], _, _, _ => []
  | seg :: rest, prev, foundMatch, n =>
    match getFixCoord seg fixCoords (some prev) with
    | none => remRouteLoop atan2deg fixCoords heading rest prev foundMatch n
    | some coord =>
      let found := foundMatch || headingTestApp heading (atan2deg (coord.2 - prev.2) (coord.1 - prev.1))
      if found then
        ⟨(n : ℤ) + 1, seg, coord.1, coord.2⟩ ::
          remRouteLoop atan2deg fixCoords heading rest coord found (n + 1)
      else remRouteLoop atan2deg fixCoords heading rest coord found n

/-- Tokenisation of the route text in `getRemainingRoute`:
`route.split(" ").map(cleanFix).filter(isValidFix)`. -/
def routeSegments (route : String) : List String :=
  ((jsSplit route ' ').map cleanFix).filter isValidFix

/-- `getRemainingRoute` from `App.tsx`. -/
def getRemainingRoute (atan2deg : ℚ → ℚ → ℚ) (ac : Aircraft)
    (fixCoords : List (String × List Fix)) : List Fix :=
  match ac.flight_plan with
  | none => []
  | some fp =>
    match fp.route with
    | none => []
    | some route =>
      if route = "" then []
      else remRouteLoop atan2deg fixCoords ac.heading (routeSegments route)
        (ac.latitude, ac.longitude) false 0

/-- Spec-side resolution trace: resolve the tokens in order, each anchored at
the last successfully resolved coordinate (initially the aircraft position),
recording for each resolved token whether the spec's folded-circular heading
test fires at its anchor. -/
def resolveTrace (atan2deg : ℚ → ℚ → ℚ) (fixCoords : List (String × List Fix))
    (heading : ℚ) : List String → Coord → List (String × Coord × Bool)
  | [], _ => []
  | seg :: rest, prev =>
    match getFixCoord seg fixCoords (some prev) with
    | none => resolveTrace atan2deg fixCoords heading rest prev
    | some coord =>
      (seg, coord, headingMatchSpec heading (atan2deg (coord.2 - prev.2) (coord.1 - prev.1)))
        :: resolveTrace atan2deg fixCoords heading rest coord

/-- Number a list of kept `(token, coordinate)` pairs from `n + 1` upward. -/
def renumberFixes : ℕ → List (String × Coord) → List Fix
  | _, [] => []
  | n, (seg, c) :: rest => ⟨(n : ℤ) + 1, seg, c.1, c.2⟩ :: renumberFixes (n + 1) rest

/-- Spec-side remaining route, following the spec's words: resolved tokens are
dropped until the first one whose bearing from the current anchor is within
30° (circular) of the heading; that token and every subsequently resolved one
are kept, renumbered from 1; no match at all leaves the empty sequence. -/
def remainingRouteSpec (atan2deg : ℚ → ℚ → ℚ) (ac : Aircraft)
    (fixCoords : List (String × List Fix)) : List Fix :=
  match ac.flight_plan with
  | none => []
  | some fp =>
    match fp.route with
    | none => []
    | some route =>
      if route = "" then []
      else
        renumberFixes 0
          (((resolveTrace atan2deg fixCoords ac.heading (routeSegments route)
              (ac.latitude, ac.longitude)).dropWhile (fun e => !e.2.2)).map
            (fun e => (e.1, e.2.1)))

theorem remRouteLoop_found (atan2deg : ℚ → ℚ → ℚ) (fixCoords : List (String × List Fix))
    (heading : ℚ) :
    ∀ (segs : List String) (prev : Coord) (n : ℕ),
      remRouteLoop atan2deg fixCoords heading segs prev true n
        = renumberFixes n ((resolveTrace atan2deg fixCoords heading segs prev).map
            (fun e => (e.1, e.2.1))) := by
  intro segs
  induction segs with
  | nil => intro prev n; rfl
  | cons seg rest ih =>
    intro prev n
    unfold remRouteLoop resolveTrace
    cases hres : getFixCoord seg fixCoords (some prev) with
    | none =>
      simp only []
      exact ih prev n
    | some coord =>
      simp only [Bool.true_or, if_pos]
      rw [List.map_cons]
      unfold renumberFixes
      rw [ih coord (n + 1)]

theorem remRouteLoop_spec (atan2deg : ℚ → ℚ → ℚ) (fixCoords : List (String × List Fix))
    (heading : ℚ) :
    ∀ (segs : List String) (prev : Coord),
      remRouteLoop atan2deg fixCoords heading segs prev false 0
        = renumberFixes 0
            (((resolveTrace atan2deg fixCoords heading segs prev).dropWhile
                (fun e => !e.2.2)).map (fun e => (e.1, e.2.1))) := by
  intro segs
  induction segs with
  | nil => intro prev; rfl
  | cons seg rest ih =>
    intro prev
    unfold remRouteLoop resolveTrace
    cases hres : getFixCoord seg fixCoords (some prev) with
    | none =>
      simp only []
      exact ih prev
    | some coord =>
      simp only [Bool.false_or]
      by_cases htest : headingTestApp heading (atan2deg (coord.2 - prev.2) (coord.1 - prev.1)) = true
      · have hspec : headingMatchSpec heading (atan2deg (coord.2 - prev.2) (coord.1 - prev.1)) = true := by
          rw [← headingTestApp_eq_spec]; exact htest
        rw [htest, if_pos rfl]
        rw [List.dropWhile_cons_of_neg (by simp [hspec])]
        rw [List.map_cons]
        unfold renumberFixes
        rw [remRouteLoop_found atan2deg fixCoords heading rest coord 1]
      · have htest' : headingTestApp heading (atan2deg (coord.2 - prev.2) (coord.1 - prev.1)) = false :=
          Bool.not_eq_true _ ▸ (Bool.eq_false_iff.mpr htest)
        have hspec : headingMatchSpec heading (atan2deg (coord.2 - prev.2) (coord.1 - prev.1)) = false := by
          rw [← headingTestApp_eq_spec]; exact htest'
        rw [htest', if_neg (by simp)]
        rw [List.dropWhile_cons_of_pos (by simp [hspec])]
        exact ih coord

/-- `getRemainingRoute` equals its spec-side description. -/
theorem getRemainingRoute_eq_spec (atan2deg : ℚ → ℚ → ℚ) (ac : Aircraft)
    (fixCoords : List (String × List Fix)) :
    getRemainingRoute atan2deg ac fixCoords = remainingRouteSpec atan2deg ac fixCoords := by
  unfold getRemainingRoute remainingRouteSpec
  cases ac.flight_plan with
  | none => rfl
  | some fp =>
    obtain ⟨r, arr, dep⟩ := fp
    cases r with
    | none => rfl
    | some route =>
      by_cases hr : route = ""
      · simp [hr]
      · simp only [if_neg hr]
        exact remRouteLoop_spec atan2deg fixCoords ac.heading (routeSegments route)
          (ac.latitude, ac.longitude)

/-! ## Sector occupancy aggregation (`SectorMatrix` of `App.tsx`) -/

def zsu_airports : List String := ["TJSJ", "TIST", "TISX", "TUPJ", "TJIG", "TJRV", "TJVQ"]

def CENTER_SECTORS : List String := ["Sector 2", "Sector 4", "Sector 6", "Sector 8"]

def APPROACH_SECTORS : List String :=
  ["Sector 1", "Sector 3", "Sector 5", "Sector 7", "Sector 9"]

def ALL_SECTORS : List String := CENTER_SECTORS ++ APPROACH_SECTORS

/-- A GeoJSON sector feature as the aggregators see it: the `sector` name and
optional `max_alt` from `properties`; `geom` stands for the polygon geometry,
which is consulted only through the abstract point-in-polygon test. -/
structure SectorFeature where
  geom : ℕ
  sector : String
  max_alt : Option ℚ
deriving Repr, DecidableEq

/-- The altitude gate of the `App.tsx` sector scan:
`zsu_airports.includes(arrival) || ac.altitude <= (props.max_alt ?? 60000)`. -/
def sectorAltCheck (arrival : String) (alt : ℚ) (f : SectorFeature) : Bool :=
  zsu_airports.contains arrival || decide (alt ≤ f.max_alt.getD 60000)

/-- `sectors.features.some(f => APPROACH_SECTORS.includes(f.sector) && contains(pt, f))`. -/
def alsoInApproach (inside : Coord → SectorFeature → Bool)
    (features : List SectorFeature) (pt : Coord) : Bool :=
  features.any (fun f => APPROACH_SECTORS.contains f.sector && inside pt f)

/-- Whether one feature of the per-slot `features.forEach` increments its
sector's count for the projected point `pt`. -/
def featureIncrements (inside : Coord → SectorFeature → Bool)
    (features : List SectorFeature) (arrival : String) (alt : ℚ) (pt : Coord)
    (f : SectorFeature) : Bool :=
  ALL_SECTORS.contains f.sector &&
    sectorAltCheck arrival alt f &&
    inside pt f &&
    !(CENTER_SECTORS.contains f.sector && decide (alt ≤ 10000) &&
      alsoInApproach inside features pt)

/-- `temp[s][idx]++` on a row-per-sector count table. -/
def bumpAt (counts : String → List ℕ) (s : String) (idx : ℕ) : String → List ℕ :=
  fun g => if g = s then (counts s).set idx ((counts s).getD idx 0 + 1) else counts g

/-- The `features.forEach` of one `(aircraft, slot)` pass, folded over the
feature list with the incrementing predicate `P` fixed. -/
def sectorSlotScanAux (P : SectorFeature → Bool) (idx : ℕ) :
    List SectorFeature → (String → List ℕ) → (String → List ℕ)
  | [], counts => counts
  | f :: rest, counts =>
    sectorSlotScanAux P idx rest (if P f then bumpAt counts f.sector idx else counts)

/-- One `(aircraft, slot)` pass of the `App.tsx` sector scan. -/
def sectorSlotScan (inside : Coord → SectorFeature → Bool)
    (features : List SectorFeature) (arrival : String) (alt : ℚ) (pt : Coord)
    (counts : String → List ℕ) (idx : ℕ) : String → List ℕ :=
  sectorSlotScanAux (featureIncrements inside features arrival alt pt) idx features counts

/-- One cell of the count table. -/
def cellVal (counts : String → List ℕ) (s : String) (i : ℕ) : ℕ := (counts s).getD i 0

theorem bumpAt_length (counts : String → List ℕ) (s : String) (idx : ℕ) (g : String) :
    ((bumpAt counts s idx) g).length = (counts g).length := by
  unfold bumpAt
  by_cases h : g = s
  · simp [h]
  · simp [h]

theorem bumpAt_row_other (counts : String → List ℕ) (s : String) (idx : ℕ) (g : String)
    (h : g ≠ s) : (bumpAt counts s idx) g = counts g := by
  unfold bumpAt
  simp [h]

theorem sectorSlotScanAux_length (P : SectorFeature → Bool) (idx : ℕ) :
    ∀ (fs : List SectorFeature) (counts : String → List ℕ) (g : String),
      ((sectorSlotScanAux P idx fs counts) g).length = (counts g).length := by
  intro fs
  induction fs with
  | nil => intro counts g; rfl
  | cons f rest ih =>
    intro counts g
    unfold sectorSlotScanAux
    by_cases hp : P f
    · rw [if_pos hp, ih]
      exact bumpAt_length counts f.sector idx g
    · rw [if_neg hp, ih]

theorem sectorSlotScanAux_row_eq (P : SectorFeature → Bool) (idx : ℕ) :
    ∀ (fs : List SectorFeature) (counts : String → List ℕ) (s : String),
      (∀ f ∈ fs, f.sector = s → P f = false) →
      (sectorSlotScanAux P idx fs counts) s = counts s := by
  intro fs
  induction fs with
  | nil => intro counts s _; rfl
  | cons f rest ih =>
    intro counts s hnone
    unfold sectorSlotScanAux
    by_cases hp : P f
    · have hfs : f.sector ≠ s := by
        intro hcontr
        rw [hnone f (List.mem_cons_self f rest) hcontr] at hp
        exact Bool.false_ne_true hp
      rw [if_pos hp, ih _ s (fun g hg hgs => hnone g (List.mem_cons_of_mem f hg) hgs),
        bumpAt_row_other counts f.sector idx s (fun hc => hfs hc.symm)]
    · rw [if_neg hp]
      exact ih _ s (fun g hg hgs => hnone g (List.mem_cons_of_mem f hg) hgs)

theorem bumpAt_cellVal_self (counts : String → List ℕ) (s : String) (idx : ℕ)
    (hlen : idx < (counts s).length) :
    cellVal (bumpAt counts s idx) s idx = cellVal counts s idx + 1 := by
  simp only [bumpAt, cellVal]
  rw [if_pos (by trivial)]
  rw [List.getD_eq_getElem?_getD, List.getElem?_set_self (by simpa using hlen)]
  rfl

theorem bumpAt_cellVal_ge (counts : String → List ℕ) (s : String) (idx : ℕ)
    (g : String) (j : ℕ) : cellVal counts g j ≤ cellVal (bumpAt counts s idx) g j := by
  simp only [bumpAt, cellVal]
  by_cases h : g = s
  · subst h
    rw [if_pos (by trivial : g = g)]
    rw [List.getD_eq_getElem?_getD, List.getD_eq_getElem?_getD]
    by_cases hij : idx = j
    · subst hij
      by_cases hlen : idx < (counts g).length
      · rw [List.getElem?_set_self (by simpa using hlen), Option.getD_some,
          ← List.getD_eq_getElem?_getD]
        omega
      · rw [List.getElem?_set_self']
        have hnone : (counts g)[idx]? = none := by
          rw [List.getElem?_eq_none_iff]
          omega
        simp [hnone]
    · rw [List.getElem?_set_ne (fun hc => hij hc)]
  · simp [h]

theorem sectorSlotScanAux_cellVal_ge (P : SectorFeature → Bool) (idx : ℕ) :
    ∀ (fs : List SectorFeature) (counts : String → List ℕ) (g : String) (j : ℕ),
      cellVal counts g j ≤ cellVal (sectorSlotScanAux P idx fs counts) g j := by
  intro fs
  induction fs with
  | nil => intro counts g j; exact le_rfl
  | cons f rest ih =>
    intro counts g j
    unfold sectorSlotScanAux
    by_cases hp : P f
    · rw [if_pos hp]
      exact le_trans (bumpAt_cellVal_ge counts f.sector idx g j) (ih _ g j)
    · rw [if_neg hp]
      exact ih _ g j

theorem sectorSlotScanAux_cellVal_succ (P : SectorFeature → Bool) (idx : ℕ) :
    ∀ (fs : List SectorFeature) (counts : String → List ℕ) (s : String)
      (f0 : SectorFeature), f0 ∈ fs → f0.sector = s → P f0 = true →
      idx < (counts s).length →
      cellVal counts s idx + 1 ≤ cellVal (sectorSlotScanAux P idx fs counts) s idx := by
  intro fs
  induction fs with
  | nil => intro counts s f0 hmem; cases hmem
  | cons f rest ih =>
    intro counts s f0 hmem hsec hP hlen
    unfold sectorSlotScanAux
    rcases List.mem_cons.mp hmem with heq | hmem'
    · subst heq
      rw [hP, if_pos rfl, hsec]
      have hbump : cellVal (bumpAt counts s idx) s idx = cellVal counts s idx + 1 :=
        bumpAt_cellVal_self counts s idx hlen
      calc cellVal counts s idx + 1 = cellVal (bumpAt counts s idx) s idx := hbump.symm
        _ ≤ _ := sectorSlotScanAux_cellVal_ge P idx rest _ s idx
    · by_cases hp : P f
      · rw [if_pos hp]
        have hlen' : idx < ((bumpAt counts f.sector idx) s).length := by
          rw [bumpAt_length]; exact hlen
        calc cellVal counts s idx + 1
            ≤ cellVal (bumpAt counts f.sector idx) s idx + 1 := by
              have := bumpAt_cellVal_ge counts f.sector idx s idx
              omega
          _ ≤ _ := ih _ s f0 hmem' hsec hP hlen'
      · rw [if_neg hp]
        exact ih _ s f0 hmem' hsec hP hlen

/-- C9: a sector feature whose properties lack `max_alt` is treated as having
a 60000 ft ceiling (`props.max_alt ?? 60000`): every aircraft at or below
60000 ft passes that sector's altitude gate, whatever its arrival airport
(no exemption needed). -/
theorem C9_missing_max_alt_default (arrival : String) (alt : ℚ) (f : SectorFeature)
    (hna : f.max_alt = none) (halt : alt ≤ 60000) :
    sectorAltCheck arrival alt f = true := by
  unfold sectorAltCheck
  rw [hna]
  simp [halt]

/-- Witness for `C9_missing_max_alt_default`: a non-exempt arrival (`KJFK`) at
exactly 60000 ft against a ceiling-less feature. -/
theorem C9_missing_max_alt_default_witness :
    (zsu_airports.contains "KJFK" = false) ∧
    sectorAltCheck "KJFK" 60000 ⟨0, "Sector 2", none⟩ = true :=
  ⟨by decide, C9_missing_max_alt_default "KJFK" 60000 ⟨0, "Sector 2", none⟩ rfl (by norm_num)⟩

/-- C2 (amended): for an aircraft at ≤ 10000 ft whose projected point lies in
a center-group polygon and in some approach-group polygon, the center sector's
counts are left unchanged for that slot (the suppression is unconditional, by
containment alone), and the approach sector's count is incremented **provided
the aircraft also passes that approach sector's own altitude gate**
(arrival-exempt or altitude ≤ its `max_alt`, default 60000). -/
theorem C2_center_approach_exclusivity
    (inside : Coord → SectorFeature → Bool) (features : List SectorFeature)
    (arrival : String) (alt : ℚ) (pt : Coord) (counts : String → List ℕ) (idx : ℕ)
    (cname aname : String)
    (hc : cname ∈ CENTER_SECTORS) (ha : aname ∈ APPROACH_SECTORS)
    (halt : alt ≤ 10000)
    (g : SectorFeature) (hg : g ∈ features) (hgs : g.sector = aname)
    (hgin : inside pt g = true)
    (hgate : sectorAltCheck arrival alt g = true)
    (hlen : idx < (counts aname).length) :
    (sectorSlotScan inside features arrival alt pt counts idx) cname = counts cname ∧
    cellVal counts aname idx + 1
      ≤ cellVal (sectorSlotScan inside features arrival alt pt counts idx) aname idx := by
  have ha' : aname ∈ (["Sector 1", "Sector 3", "Sector 5", "Sector 7", "Sector 9"] : List String) := ha
  have hc' : cname ∈ (["Sector 2", "Sector 4", "Sector 6", "Sector 8"] : List String) := hc
  have happC : APPROACH_SECTORS.contains aname = true := by
    fin_cases ha' <;> decide
  have hnotCa : CENTER_SECTORS.contains aname = false := by
    fin_cases ha' <;> decide
  have hallA : ALL_SECTORS.contains aname = true := by
    fin_cases ha' <;> decide
  have hcontC : CENTER_SECTORS.contains cname = true := by
    fin_cases hc' <;> decide
  have halso : alsoInApproach inside features pt = true := by
    unfold alsoInApproach
    rw [List.any_eq_true]
    refine ⟨g, hg, ?_⟩
    rw [hgs, happC, hgin]
    rfl
  constructor
  · apply sectorSlotScanAux_row_eq
    intro f hf hfs
    unfold featureIncrements
    rw [hfs, hcontC, halso]
    simp [halt]
  · have hP : featureIncrements inside features arrival alt pt g = true := by
      unfold featureIncrements
      rw [hgs, hallA, hgate, hgin, hnotCa]
      rfl
    exact sectorSlotScanAux_cellVal_succ (featureIncrements inside features arrival alt pt)
      idx features counts aname g hg hgs hP hlen

/-- Features for the C2 counterexample: a ceiling-less center polygon
`Sector 2` and an approach polygon `Sector 1` with a 5000 ft ceiling. -/
def c2Features : List SectorFeature :=
  [⟨0, "Sector 2", none⟩, ⟨1, "Sector 1", some 5000⟩]

/-- C2 counterexample: an aircraft at 9000 ft with non-exempt arrival `KJFK`,
whose projected point is inside **both** polygons (the containment test is
constantly true): the center count is suppressed, but the approach count is
*also* left at 0, because `Sector 1`'s own altitude gate (`max_alt` 5000 ft)
fails — the claim's "the approach sector's count for that slot is incremented"
is false at this input. -/
theorem C2_approach_increment_counterexample :
    (sectorSlotScan (fun _ _ => true) c2Features "KJFK" 9000 (0, 0) (fun _ => [0]) 0)
        "Sector 1" = [0] ∧
    (sectorSlotScan (fun _ _ => true) c2Features "KJFK" 9000 (0, 0) (fun _ => [0]) 0)
        "Sector 2" = [0] ∧
    ((9000 : ℚ) ≤ 10000) ∧
    sectorAltCheck "KJFK" 9000 ⟨1, "Sector 1", some 5000⟩ = false := by
  refine ⟨?_, ?_, by norm_num, by decide⟩ <;> decide

/-- Witness for `C2_center_approach_exclusivity` with an approach polygon
whose gate passes (`max_alt` 60000). -/
theorem C2_center_approach_exclusivity_witness :
    (sectorSlotScan (fun _ _ => true)
        [⟨0, "Sector 2", none⟩, ⟨1, "Sector 1", some 60000⟩] "KJFK" 9000 (0, 0)
        (fun _ => [0]) 0) "Sector 2" = (fun (_ : String) => [(0 : ℕ)]) "Sector 2" ∧
    cellVal (fun _ => [0]) "Sector 1" 0 + 1
      ≤ cellVal (sectorSlotScan (fun _ _ => true)
          [⟨0, "Sector 2", none⟩, ⟨1, "Sector 1", some 60000⟩] "KJFK" 9000 (0, 0)
          (fun _ => [0]) 0) "Sector 1" 0 :=
  C2_center_approach_exclusivity (fun _ _ => true)
    [⟨0, "Sector 2", none⟩, ⟨1, "Sector 1", some 60000⟩] "KJFK" 9000 (0, 0)
    (fun _ => [0]) 0 "Sector 2" "Sector 1" (by decide) (by decide) (by decide)
    ⟨1, "Sector 1", some 60000⟩ (by decide) rfl rfl (by decide) (by decide)

/-- Initial per-sector count table:
`ALL_SECTORS.forEach(s => { temp[s] = Array(slots.length).fill(0) })`;
undeclared keys are absent, modelled as the empty row. -/
def initSectorCounts (n : ℕ) : String → List ℕ :=
  fun s => if s ∈ ALL_SECTORS then List.replicate n 0 else []

/-- JavaScript array indexing `l[i]` with a possibly negative or out-of-range
index: `undefined` outside the range. -/
def jsIndex (l : List Fix) (i : ℤ) : Option Fix :=
  if 0 ≤ i then l.get? i.toNat else none

/-- `if (!fix) return;` — the slot body applied to the (possibly undefined)
selected fix. -/
def acSlotApply (inside : Coord → SectorFeature → Bool) (features : List SectorFeature)
    (arrival : String) (alt : ℚ) (idx : ℕ) (counts : String → List ℕ) :
    Option Fix → (String → List ℕ)
  | none => counts
  | some fix => sectorSlotScan inside features arrival alt (fix.lon, fix.lat) counts idx

/-- The body of the per-aircraft `slots.forEach((slot, idx) => …)` of the
`App.tsx` sector matrix: index-based fix selection
(`min(floor(minutesAhead / (windowHours*60) * routeFixes.length), len - 1)`,
skip when the index is out of range), then the feature scan at the chosen
fix's `[lon, lat]` point. -/
def acSlotStep (inside : Coord → SectorFeature → Bool) (features : List SectorFeature)
    (arrival : String) (alt : ℚ) (routeFixes : List Fix) (windowHours : ℕ) (now : ℚ)
    (counts : String → List ℕ) (p : ℕ × ℚ) : String → List ℕ :=
  let minutesAhead := (p.2 - now) / 60000
  let fixIdx : ℤ :=
    min ⌊minutesAhead / ((windowHours : ℚ) * 60) * (routeFixes.length : ℚ)⌋
      ((routeFixes.length : ℤ) - 1)
  acSlotApply inside features arrival alt p.1 counts (jsIndex routeFixes fixIdx)

/-- The route text a flight plan carries (`ac.flight_plan.route`, with both a
missing plan and a missing route reading as the falsy `''`). -/
def fpRouteText : Option FlightPlan → String
  | none => ""
  | some fp => fp.route.getD ""

/-- `ac.flight_plan?.arrival || ''`. -/
def fpArrivalText : Option FlightPlan → String
  | none => ""
  | some fp => fp.arrival.getD ""

/-- One aircraft of the `aircraftData.forEach` pass of the `App.tsx` sector
matrix: pre-filter (altitude ≥ 100, flight plan with truthy route text,
current position inside the prediction boundary), remaining-route projection,
then the per-slot loop. -/
def sectorAircraftStep (atan2deg : ℚ → ℚ → ℚ) (inside : Coord → SectorFeature → Bool)
    (insideBoundary : Coord → Bool) (fixCoords : List (String × List Fix))
    (features : List SectorFeature) (slots : List ℚ) (windowHours : ℕ) (now : ℚ)
    (temp : String → List ℕ) (ac : Aircraft) : String → List ℕ :=
  if ac.altitude < 100 ∨ ac.flight_plan = none ∨ fpRouteText ac.flight_plan = "" then temp
  else if !(insideBoundary (ac.longitude, ac.latitude)) then temp
  else
    if (getRemainingRoute atan2deg ac fixCoords).length = 0 then temp
    else
      slots.enum.foldl
        (acSlotStep inside features (fpArrivalText ac.flight_plan) ac.altitude
          (getRemainingRoute atan2deg ac fixCoords) windowHours now) temp

/-- The full per-cycle sector aggregation of `App.tsx` (the per-slot counts;
the independent present-now tally does not touch these rows). -/
def sectorAggregate (atan2deg : ℚ → ℚ → ℚ) (inside : Coord → SectorFeature → Bool)
    (insideBoundary : Coord → Bool) (fixCoords : List (String × List Fix))
    (features : List SectorFeature) (slots : List ℚ) (windowHours : ℕ) (now : ℚ)
    (aircraftData : List Aircraft) : String → List ℕ :=
  aircraftData.foldl
    (sectorAircraftStep atan2deg inside insideBoundary fixCoords features slots windowHours now)
    (initSectorCounts slots.length)

/-! ## Gate aggregation (the `TJSJArrivals` gate monitor) -/

def GATES : List String := ["SAALR", "BEANO", "JOSHE", "VEDAS", "STT"]

def TJSJ_COORDS : Coord := ((18.4394 : ℚ), (-66.0018 : ℚ))

/-- Does `hay` start with `needle` (character lists)? -/
def charsStartWith : List Char → List Char → Bool
  | _, [] => true
  | [], _ :: _ => false
  | a :: as, b :: bs => a == b && charsStartWith as bs

/-- `charsContain needle hay`: does `hay` contain `needle` as a contiguous
substring? -/
def charsContain (needle : List Char) : List Char → Bool
  | [] => charsStartWith [] needle
  | l@(_ :: t) => charsStartWith l needle || charsContain needle t

/-- JavaScript `hay.includes(needle)`. -/
def strIncludes (hay needle : String) : Bool := charsContain needle.data hay.data

/-- The flight-plan fields the gate monitor reads. -/
structure GPlan where
  arrival : Option String
  route : Option String
deriving Repr, DecidableEq

/-- A pilot record as the gate monitor reads it. -/
structure Pilot where
  callsign : String
  latitude : ℚ
  longitude : ℚ
  altitude : ℚ
  groundspeed : Option ℚ
  flight_plan : Option GPlan
deriving Repr, DecidableEq

/-- `bucketIndex` of the gate monitor: the JS `for` loop with index `i`. -/
def bucketIndexAux (d : ℚ) (i : ℤ) : List ℚ → ℤ
  | [] => -1
  | s :: rest => if s ≤ d ∧ d < s + 15 * 60 * 1000 then i else bucketIndexAux d (i + 1) rest

/-- `bucketIndex(d, slots)`: index of the half-open 15-minute slot containing
`d`, `-1` when none does. -/
def bucketIndex (d : ℚ) (slots : List ℚ) : ℤ := bucketIndexAux d 0 slots

/-- `p.groundspeed || 450`: an unreported (`undefined`) and a zero groundspeed
are both falsy in JS, so both fall back to 450 kt. -/
def effectiveSpeed : Option ℚ → ℚ
  | none => 450
  | some v => if v = 0 then 450 else v

/-- `p.flight_plan.route?.toUpperCase() || ''`. -/
def routeUpperOf (p : Pilot) : String :=
  match p.flight_plan with
  | none => ""
  | some fp => (fp.route.map jsUpper).getD ""

/-- `GATES.find(g => route.includes(g)) || 'UNKNOWN'`. -/
def gateOf (p : Pilot) : String :=
  (GATES.find? (fun g => strIncludes (routeUpperOf p) g)).getD "UNKNOWN"

/-- The estimated arrival instant: great-circle distance to TJSJ divided by
the effective groundspeed, converted to milliseconds from `now`.  `distNM`
abstracts the haversine `getDistanceNM`. -/
def etaOf (distNM : ℚ → ℚ → ℚ → ℚ → ℚ) (now : ℚ) (p : Pilot) : ℚ :=
  now + distNM p.latitude p.longitude TJSJ_COORDS.1 TJSJ_COORDS.2
    / effectiveSpeed p.groundspeed * 60 * 60 * 1000

/-- `if (!countInit[gate]) countInit[gate] = Array(n).fill(0); countInit[gate][idx]++`. -/
def gateBump (n : ℕ) (c : String → Option (List ℕ)) (gate : String) (idx : ℕ) :
    String → Option (List ℕ) :=
  fun g =>
    if g = gate then
      some (((c gate).getD (List.replicate n 0)).set idx
        (((c gate).getD (List.replicate n 0)).getD idx 0 + 1))
    else c g

/-- `GATES.reduce((o, g) => { o[g] = Array(n).fill(0); return o }, {})`. -/
def gateInit (n : ℕ) : String → Option (List ℕ) :=
  fun g => if g ∈ GATES then some (List.replicate n 0) else none

/-- One arrival of the gate monitor's `arrivals.forEach`. -/
def pilotStep (distNM : ℚ → ℚ → ℚ → ℚ → ℚ) (now : ℚ) (slots : List ℚ)
    (c : String → Option (List ℕ)) (p : Pilot) : String → Option (List ℕ) :=
  if p.altitude < 100 then c
  else
    if bucketIndex (etaOf distNM now p) slots = -1 then c
    else gateBump slots.length c (gateOf p) (bucketIndex (etaOf distNM now p) slots).toNat

/-- `data.pilots.filter(p => p.flight_plan?.arrival === 'TJSJ')`. -/
def isTJSJArrival (p : Pilot) : Bool :=
  match p.flight_plan with
  | none => false
  | some fp => fp.arrival == some "TJSJ"

/-- The whole per-cycle gate aggregation of the gate monitor's `fetchData`. -/
def fetchDataCounts (distNM : ℚ → ℚ → ℚ → ℚ → ℚ) (now : ℚ) (slots : List ℚ)
    (pilots : List Pilot) : String → Option (List ℕ) :=
  (pilots.filter isTJSJArrival).foldl (pilotStep distNM now slots) (gateInit slots.length)

/-- One cell of the gate count table (missing row reads as empty). -/
def gCell (c : String → Option (List ℕ)) (g : String) (i : ℕ) : ℕ :=
  ((c g).getD []).getD i 0

/-- Replace (only) the filed route text of a pilot. -/
def withRoute (p : Pilot) (r : Option String) : Pilot :=
  Pilot.mk p.callsign p.latitude p.longitude p.altitude p.groundspeed
    (some (GPlan.mk (match p.flight_plan with | none => none | some fp => fp.arrival) r))

theorem bucketIndexAux_ne_bounds (d : ℚ) :
    ∀ (slots : List ℚ) (i : ℤ), bucketIndexAux d i slots ≠ -1 →
      i ≤ bucketIndexAux d i slots ∧ bucketIndexAux d i slots < i + slots.length := by
  intro slots
  induction slots with
  | nil => intro i h; exact absurd rfl h
  | cons s rest ih =>
    intro i h
    unfold bucketIndexAux at h ⊢
    by_cases hc : s ≤ d ∧ d < s + 15 * 60 * 1000
    · rw [if_pos hc] at h ⊢
      refine ⟨le_rfl, ?_⟩
      have : (0 : ℤ) < (s :: rest).length := by
        simp [List.length_cons]
      omega
    · rw [if_neg hc] at h ⊢
      have hb := ih (i + 1) h
      have : ((s :: rest).length : ℤ) = (rest.length : ℤ) + 1 := by
        simp [List.length_cons]
      omega

theorem bucketIndexAux_none (d : ℚ) :
    ∀ (slots : List ℚ) (i : ℤ),
      (∀ s ∈ slots, ¬ (s ≤ d ∧ d < s + 15 * 60 * 1000)) →
      bucketIndexAux d i slots = -1 := by
  intro slots
  induction slots with
  | nil => intro i _; rfl
  | cons s rest ih =>
    intro i hnone
    unfold bucketIndexAux
    rw [if_neg (hnone s (List.mem_cons_self s rest))]
    exact ih (i + 1) (fun x hx => hnone x (List.mem_cons_of_mem s hx))

theorem gateBump_rows (n : ℕ) (c : String → Option (List ℕ)) (gate : String) (idx : ℕ)
    (hrows : ∀ g l, c g = some l → l.length = n) :
    ∀ g l, (gateBump n c gate idx) g = some l → l.length = n := by
  intro g l hl
  unfold gateBump at hl
  by_cases hg : g = gate
  · rw [if_pos hg] at hl
    have hlen : ((c gate).getD (List.replicate n 0)).length = n := by
      cases hcg : c gate with
      | none => simp
      | some l' => simpa using hrows gate l' hcg
    have := (Option.some_inj.mp hl).symm
    rw [this, List.length_set, hlen]
  · rw [if_neg hg] at hl
    exact hrows g l hl

theorem gCell_gateBump_self (n : ℕ) (c : String → Option (List ℕ)) (gate : String) (idx : ℕ)
    (hidx : idx < n) (hrows : ∀ g l, c g = some l → l.length = n) :
    gCell (gateBump n c gate idx) gate idx = gCell c gate idx + 1 := by
  unfold gateBump gCell
  beta_reduce
  rw [if_pos (rfl : gate = gate), Option.getD_some]
  have hlen : ((c gate).getD (List.replicate n 0)).length = n := by
    cases hcg : c gate with
    | none => simp
    | some l' => simpa using hrows gate l' hcg
  rw [List.getD_eq_getElem?_getD, List.getElem?_set_self (by rw [hlen]; exact hidx),
    Option.getD_some]
  cases hcg : c gate with
  | none =>
    simp only [hcg, Option.getD_none]
    rw [List.getD_eq_getElem?_getD, List.getElem?_replicate_of_lt hidx]
    rfl
  | some l' =>
    simp [hcg]

theorem gCell_gateBump_ne (n : ℕ) (c : String → Option (List ℕ)) (gate : String) (idx : ℕ)
    (g : String) (i : ℕ) (h : ¬ (g = gate ∧ i = idx)) :
    gCell (gateBump n c gate idx) g i = gCell c g i := by
  unfold gateBump gCell
  beta_reduce
  by_cases hg : g = gate
  · subst hg
    have hi : ¬ i = idx := fun hc => h ⟨rfl, hc⟩
    rw [if_pos (rfl : g = g), Option.getD_some]
    rw [List.getD_eq_getElem?_getD, List.getElem?_set_ne (fun hc => hi hc.symm)]
    cases hcg : c g with
    | none =>
      simp only [hcg, Option.getD_none]
      rw [List.getElem?_replicate]
      by_cases hin : i < n
      · rw [if_pos hin]; rfl
      · rw [if_neg hin]; rfl
    | some l' =>
      simp only [hcg, Option.getD_some]
      rw [← List.getD_eq_getElem?_getD]
  · simp only [if_neg hg]

theorem pilotStep_rows (distNM : ℚ → ℚ → ℚ → ℚ → ℚ) (now : ℚ) (slots : List ℚ)
    (c : String → Option (List ℕ)) (p : Pilot)
    (hrows : ∀ g l, c g = some l → l.length = slots.length) :
    ∀ g l, (pilotStep distNM now slots c p) g = some l → l.length = slots.length := by
  unfold pilotStep
  by_cases h1 : p.altitude < 100
  · rw [if_pos h1]; exact hrows
  · rw [if_neg h1]
    by_cases h2 : bucketIndex (etaOf distNM now p) slots = -1
    · rw [if_pos h2]; exact hrows
    · rw [if_neg h2]
      exact gateBump_rows slots.length c _ _ hrows

theorem pilotStep_some (distNM : ℚ → ℚ → ℚ → ℚ → ℚ) (now : ℚ) (slots : List ℚ)
    (c : String → Option (List ℕ)) (p : Pilot) (g : String)
    (h : (c g).isSome = true) : ((pilotStep distNM now slots c p) g).isSome = true := by
  unfold pilotStep
  by_cases h1 : p.altitude < 100
  · rw [if_pos h1]; exact h
  · rw [if_neg h1]
    by_cases h2 : bucketIndex (etaOf distNM now p) slots = -1
    · rw [if_pos h2]; exact h
    · rw [if_neg h2]
      unfold gateBump
      by_cases hg : g = gateOf p
      · rw [if_pos hg]; rfl
      · rw [if_neg hg]; exact h

theorem foldl_pilotStep_rows (distNM : ℚ → ℚ → ℚ → ℚ → ℚ) (now : ℚ) (slots : List ℚ) :
    ∀ (ps : List Pilot) (c : String → Option (List ℕ)),
      (∀ g l, c g = some l → l.length = slots.length) →
      ∀ g l, (ps.foldl (pilotStep distNM now slots) c) g = some l → l.length = slots.length := by
  intro ps
  induction ps with
  | nil => intro c hc; exact hc
  | cons p rest ih =>
    intro c hc
    rw [List.foldl_cons]
    exact ih _ (pilotStep_rows distNM now slots c p hc)

theorem foldl_pilotStep_some (distNM : ℚ → ℚ → ℚ → ℚ → ℚ) (now : ℚ) (slots : List ℚ) :
    ∀ (ps : List Pilot) (c : String → Option (List ℕ)) (g : String),
      (c g).isSome = true → ((ps.foldl (pilotStep distNM now slots) c) g).isSome = true := by
  intro ps
  induction ps with
  | nil => intro c g h; exact h
  | cons p rest ih =>
    intro c g h
    rw [List.foldl_cons]
    exact ih _ g (pilotStep_some distNM now slots c p g h)

theorem gateInit_rows (n : ℕ) : ∀ g l, gateInit n g = some l → l.length = n := by
  intro g l hl
  unfold gateInit at hl
  by_cases hg : g ∈ GATES
  · rw [if_pos hg] at hl
    rw [← Option.some_inj.mp hl]
    exact List.length_replicate n 0
  · rw [if_neg hg] at hl
    cases hl

theorem acSlotStep_length (inside : Coord → SectorFeature → Bool)
    (features : List SectorFeature) (arrival : String) (alt : ℚ) (routeFixes : List Fix)
    (windowHours : ℕ) (now : ℚ) (counts : String → List ℕ) (p : ℕ × ℚ) (g : String) :
    ((acSlotStep inside features arrival alt routeFixes windowHours now counts p) g).length
      = (counts g).length := by
  have happ : ∀ (o : Option Fix),
      ((acSlotApply inside features arrival alt p.1 counts o) g).length
        = (counts g).length := by
    intro o
    cases o with
    | none => rfl
    | some fix => exact sectorSlotScanAux_length _ _ _ _ _
  unfold acSlotStep
  exact happ _

theorem sectorAircraftStep_length (atan2deg : ℚ → ℚ → ℚ)
    (inside : Coord → SectorFeature → Bool) (insideBoundary : Coord → Bool)
    (fixCoords : List (String × List Fix)) (features : List SectorFeature)
    (slots : List ℚ) (windowHours : ℕ) (now : ℚ) (temp : String → List ℕ)
    (ac : Aircraft) (g : String) :
    ((sectorAircraftStep atan2deg inside insideBoundary fixCoords features slots
        windowHours now temp ac) g).length = (temp g).length := by
  have hfold : ∀ (ps : List (ℕ × ℚ)) (arrival : String) (alt : ℚ) (routeFixes : List Fix)
      (c : String → List ℕ),
      ((ps.foldl (acSlotStep inside features arrival alt routeFixes windowHours now) c) g).length
        = (c g).length := by
    intro ps
    induction ps with
    | nil => intro arrival alt routeFixes c; rfl
    | cons p rest ih =>
      intro arrival alt routeFixes c
      rw [List.foldl_cons, ih, acSlotStep_length]
  unfold sectorAircraftStep
  by_cases h1 : ac.altitude < 100 ∨ ac.flight_plan = none ∨ fpRouteText ac.flight_plan = ""
  · rw [if_pos h1]
  · rw [if_neg h1]
    by_cases h2 : (!insideBoundary (ac.longitude, ac.latitude)) = true
    · rw [if_pos h2]
    · rw [if_neg h2]
      by_cases h3 : (getRemainingRoute atan2deg ac fixCoords).length = 0
      · rw [if_pos h3]
      · rw [if_neg h3]
        exact hfold _ _ _ _ _

theorem sectorAggregate_length (atan2deg : ℚ → ℚ → ℚ)
    (inside : Coord → SectorFeature → Bool) (insideBoundary : Coord → Bool)
    (fixCoords : List (String × List Fix)) (features : List SectorFeature)
    (slots : List ℚ) (windowHours : ℕ) (now : ℚ) (g : String) :
    ∀ (acs : List Aircraft) (c : String → List ℕ),
      ((acs.foldl (sectorAircraftStep atan2deg inside insideBoundary fixCoords features
          slots windowHours now) c) g).length = (c g).length := by
  intro acs
  induction acs with
  | nil => intro c; rfl
  | cons a rest ih =>
    intro c
    rw [List.foldl_cons, ih, sectorAircraftStep_length]

/-- **C8.** After every aggregation cycle the capacity matrix has one row per
declared region — every sector of `ALL_SECTORS` in the sector matrix, every
gate of `GATES` in the gate monitor — with one integer count per slot; the
rows are pre-initialized to zero, so with no contributing aircraft a region's
row still exists with all counts zero. -/
theorem C8_rows_for_every_region (atan2deg : ℚ → ℚ → ℚ)
    (inside : Coord → SectorFeature → Bool) (insideBoundary : Coord → Bool)
    (fixCoords : List (String × List Fix)) (features : List SectorFeature)
    (slots : List ℚ) (windowHours : ℕ) (now : ℚ) (aircraftData : List Aircraft)
    (distNM : ℚ → ℚ → ℚ → ℚ → ℚ) (nowG : ℚ) (slotsG : List ℚ) (pilots : List Pilot) :
    (∀ s ∈ ALL_SECTORS,
      ((sectorAggregate atan2deg inside insideBoundary fixCoords features slots windowHours
          now aircraftData) s).length = slots.length) ∧
    (∀ s ∈ ALL_SECTORS,
      sectorAggregate atan2deg inside insideBoundary fixCoords features slots windowHours
          now [] s = List.replicate slots.length 0) ∧
    (∀ g ∈ GATES, ∃ l, fetchDataCounts distNM nowG slotsG pilots g = some l ∧
      l.length = slotsG.length) ∧
    (∀ g ∈ GATES,
      fetchDataCounts distNM nowG slotsG [] g = some (List.replicate slotsG.length 0)) := by
  refine ⟨?_, ?_, ?_, ?_⟩
  · intro s hs
    unfold sectorAggregate
    rw [sectorAggregate_length]
    unfold initSectorCounts
    rw [if_pos hs, List.length_replicate]
  · intro s hs
    unfold sectorAggregate
    rw [List.foldl_nil]
    unfold initSectorCounts
    rw [if_pos hs]
  · intro g hg
    have hsome : ((fetchDataCounts distNM nowG slotsG pilots) g).isSome = true := by
      unfold fetchDataCounts
      apply foldl_pilotStep_some
      unfold gateInit
      rw [if_pos hg]
      rfl
    obtain ⟨l, hl⟩ := Option.isSome_iff_exists.mp hsome
    refine ⟨l, hl, ?_⟩
    exact foldl_pilotStep_rows distNM nowG slotsG (pilots.filter isTJSJArrival)
      (gateInit slotsG.length) (gateInit_rows slotsG.length) g l hl
  · intro g hg
    unfold fetchDataCounts
    rw [List.filter_nil, List.foldl_nil]
    unfold gateInit
    rw [if_pos hg]

theorem C8_rows_for_every_region_witness :
    ((sectorAggregate (fun _ _ => 0) (fun _ _ => false) (fun _ => false) [] [] [0] 1 0 [])
        "Sector 2").length = 1 ∧
    sectorAggregate (fun _ _ => 0) (fun _ _ => false) (fun _ => false) [] [] [0] 1 0 []
        "Sector 2" = List.replicate 1 0 ∧
    (∃ l, fetchDataCounts (fun _ _ _ _ => 0) 0 [0] [] "SAALR" = some l ∧ l.length = 1) ∧
    fetchDataCounts (fun _ _ _ _ => 0) 0 [0] [] "SAALR" = some (List.replicate 1 0) := by
  obtain ⟨h1, h2, h3, h4⟩ := C8_rows_for_every_region (fun _ _ => 0) (fun _ _ => false)
    (fun _ => false) [] [] [0] 1 0 [] (fun _ _ _ _ => 0) 0 [0] []
  exact ⟨h1 "Sector 2" (by decide), h2 "Sector 2" (by decide), h3 "SAALR" (by decide),
    h4 "SAALR" (by decide)⟩

/-- **C10.** In the gate aggregator, an aircraft whose estimated arrival
instant falls before the first slot's start or at/after the last slot's end
gets bucket index `-1` and is skipped: every gate's counts are unchanged by
it.  The slot grid is the gate monitor's `generateSlots` (`generateSlotsTJ`),
whose first slot starts at `start` and whose last slot ends at
`start + h` hours. -/
theorem C10_out_of_window_skipped (distNM : ℚ → ℚ → ℚ → ℚ → ℚ) (now start : ℚ) (h : ℕ)
    (c : String → Option (List ℕ)) (p : Pilot)
    (hout : etaOf distNM now p < start ∨
      start + (h : ℚ) * 3600 * 1000 ≤ etaOf distNM now p) :
    bucketIndex (etaOf distNM now p) (generateSlotsTJ start h) = -1 ∧
    pilotStep distNM now (generateSlotsTJ start h) c p = c := by
  set d := etaOf distNM now p with hd
  have hslots : generateSlotsTJ start h
      = (List.range (h * 4)).map (fun (i : ℕ) => start + (i : ℚ) * 15 * 60000) := by
    unfold generateSlotsTJ
    rw [show start + (h : ℚ) * 3600 * 1000 = start + ((h * 4 : ℕ) : ℚ) * 900000 by
      push_cast; ring]
    exact genSlotsLoop_multiple (h * 4) start
  have hnone : ∀ s ∈ generateSlotsTJ start h, ¬ (s ≤ d ∧ d < s + 15 * 60 * 1000) := by
    intro s hs
    rw [hslots] at hs
    obtain ⟨i, hir, hieq⟩ := List.mem_map.mp hs
    have hilt : i < h * 4 := List.mem_range.mp hir
    rintro ⟨hle, hlt⟩
    rw [← hieq] at hle hlt
    rcases hout with hlo | hhi
    · have hnn : (0 : ℚ) ≤ (i : ℚ) * 15 * 60000 := by positivity
      linarith
    · have hcast : ((i : ℚ) + 1) ≤ ((h * 4 : ℕ) : ℚ) := by
        exact_mod_cast hilt
      have hco : ((h * 4 : ℕ) : ℚ) * 900000 = (h : ℚ) * 3600 * 1000 := by
        push_cast; ring
      nlinarith [hcast, hco]
  have hbi : bucketIndex d (generateSlotsTJ start h) = -1 :=
    bucketIndexAux_none d (generateSlotsTJ start h) 0 hnone
  refine ⟨hbi, ?_⟩
  unfold pilotStep
  rw [← hd]
  by_cases h100 : p.altitude < 100
  · rw [if_pos h100]
  · rw [if_neg h100, if_pos hbi]

theorem C10_out_of_window_skipped_witness :
    bucketIndex
        (etaOf (fun _ _ _ _ => 0) 0
          (Pilot.mk "N1" 18 (-66) 35000 (some 450) (some (GPlan.mk (some "TJSJ") (some "SAALR TJSJ")))))
        (generateSlotsTJ 900000 1) = -1 ∧
    pilotStep (fun _ _ _ _ => 0) 0 (generateSlotsTJ 900000 1) (fun _ => none)
        (Pilot.mk "N1" 18 (-66) 35000 (some 450) (some (GPlan.mk (some "TJSJ") (some "SAALR TJSJ"))))
      = (fun _ => none) :=
  C10_out_of_window_skipped (fun _ _ _ _ => 0) 0 900000 1 (fun _ => none)
    (Pilot.mk "N1" 18 (-66) 35000 (some 450) (some (GPlan.mk (some "TJSJ") (some "SAALR TJSJ"))))
    (Or.inl (by norm_num [etaOf, effectiveSpeed, TJSJ_COORDS]))

/-- **C6.** For every retained arrival (altitude ≥ 100 ft and an in-window
estimated arrival bucket) the gate aggregator assigns the aircraft to the
first `GATES` entry occurring as a substring of its upper-cased route text —
`"UNKNOWN"` when none does; the slot index comes from the estimated arrival
instant (great-circle distance to TJSJ divided by the groundspeed, with 450 kt
substituted for an unreported one), is independent of the filed route text (no
route walk), and exactly that one cell of that gate's row is incremented. -/
theorem C6_gate_assignment_eta_bucket (distNM : ℚ → ℚ → ℚ → ℚ → ℚ) (now : ℚ)
    (slots : List ℚ) (c : String → Option (List ℕ)) (p : Pilot)
    (hAlt : ¬ p.altitude < 100)
    (hIdx : bucketIndex (etaOf distNM now p) slots ≠ -1)
    (hrows : ∀ g l, c g = some l → l.length = slots.length) :
    ((∃ pre g post, GATES = pre ++ g :: post ∧
        strIncludes (routeUpperOf p) g = true ∧
        (∀ g' ∈ pre, strIncludes (routeUpperOf p) g' = false) ∧ gateOf p = g) ∨
      ((∀ g ∈ GATES, strIncludes (routeUpperOf p) g = false) ∧ gateOf p = "UNKNOWN")) ∧
    etaOf distNM now p
      = now + distNM p.latitude p.longitude TJSJ_COORDS.1 TJSJ_COORDS.2
          / effectiveSpeed p.groundspeed * 60 * 60 * 1000 ∧
    (p.groundspeed = none → effectiveSpeed p.groundspeed = 450) ∧
    (∀ r', bucketIndex (etaOf distNM now (withRoute p r')) slots
        = bucketIndex (etaOf distNM now p) slots) ∧
    gCell (pilotStep distNM now slots c p) (gateOf p)
        (bucketIndex (etaOf distNM now p) slots).toNat
      = gCell c (gateOf p) (bucketIndex (etaOf distNM now p) slots).toNat + 1 ∧
    (∀ g i, ¬ (g = gateOf p ∧ i = (bucketIndex (etaOf distNM now p) slots).toNat) →
      gCell (pilotStep distNM now slots c p) g i = gCell c g i) := by
  have hb := bucketIndexAux_ne_bounds (etaOf distNM now p) slots 0 hIdx
  have hlt : (bucketIndex (etaOf distNM now p) slots).toNat < slots.length := by
    have hbi : bucketIndex (etaOf distNM now p) slots
        = bucketIndexAux (etaOf distNM now p) 0 slots := rfl
    omega
  have hps : pilotStep distNM now slots c p
      = gateBump slots.length c (gateOf p)
          (bucketIndex (etaOf distNM now p) slots).toNat := by
    unfold pilotStep
    rw [if_neg hAlt, if_neg hIdx]
  refine ⟨?_, rfl, ?_, ?_, ?_, ?_⟩
  · cases hf : GATES.find? (fun g => strIncludes (routeUpperOf p) g) with
    | none =>
      refine Or.inr ⟨fun g hg => ?_, ?_⟩
      · have := List.find?_eq_none.mp hf g hg
        simpa using this
      · unfold gateOf
        rw [hf]
        rfl
    | some g0 =>
      obtain ⟨hp0, as, bs, heq, hpre⟩ := List.find?_eq_some.mp hf
      refine Or.inl ⟨as, g0, bs, heq, hp0, fun g' hg' => ?_, ?_⟩
      · simpa using hpre g' hg'
      · unfold gateOf
        rw [hf]
        rfl
  · intro hgs
    rw [hgs]
    rfl
  · intro r'
    rfl
  · rw [hps]
    exact gCell_gateBump_self slots.length c (gateOf p) _ hlt hrows
  · intro g i hne
    rw [hps]
    exact gCell_gateBump_ne slots.length c (gateOf p) _ g i hne

def pC6 : Pilot :=
  Pilot.mk "N2" 18 (-66) 35000 none (some (GPlan.mk (some "TJSJ") (some "saalr tjsj")))

def dnmC6 : ℚ → ℚ → ℚ → ℚ → ℚ := fun _ _ _ _ => 450

theorem C6_gate_assignment_eta_bucket_witness :
    ((∃ pre g post, GATES = pre ++ g :: post ∧
        strIncludes (routeUpperOf pC6) g = true ∧
        (∀ g' ∈ pre, strIncludes (routeUpperOf pC6) g' = false) ∧ gateOf pC6 = g) ∨
      ((∀ g ∈ GATES, strIncludes (routeUpperOf pC6) g = false) ∧ gateOf pC6 = "UNKNOWN")) ∧
    etaOf dnmC6 0 pC6
      = 0 + dnmC6 pC6.latitude pC6.longitude TJSJ_COORDS.1 TJSJ_COORDS.2
          / effectiveSpeed pC6.groundspeed * 60 * 60 * 1000 ∧
    (pC6.groundspeed = none → effectiveSpeed pC6.groundspeed = 450) ∧
    (∀ r', bucketIndex (etaOf dnmC6 0 (withRoute pC6 r')) [3600000]
        = bucketIndex (etaOf dnmC6 0 pC6) [3600000]) ∧
    gCell (pilotStep dnmC6 0 [3600000] (fun _ => none) pC6) (gateOf pC6)
        (bucketIndex (etaOf dnmC6 0 pC6) [3600000]).toNat
      = gCell (fun _ => none) (gateOf pC6)
          (bucketIndex (etaOf dnmC6 0 pC6) [3600000]).toNat + 1 ∧
    (∀ g i, ¬ (g = gateOf pC6 ∧ i = (bucketIndex (etaOf dnmC6 0 pC6) [3600000]).toNat) →
      gCell (pilotStep dnmC6 0 [3600000] (fun _ => none) pC6) g i
        = gCell (fun _ => none) g i) :=
  C6_gate_assignment_eta_bucket dnmC6 0 [3600000] (fun _ => none) pC6
    (by decide)
    (by norm_num [bucketIndex, bucketIndexAux, etaOf, effectiveSpeed, dnmC6, pC6, TJSJ_COORDS])
    (by intro g l hl; simp at hl)

/-! ## Position projection (`estimateFuturePositions` of `App.tsx` and
`estimateFuturePosition` of the `TJSJArrivals` sector matrix) -/

/-- The `for` loop of `estimateFuturePositions`: walks `path`, accumulating
the eta instant leg by leg (`eta + dist / NM_PER_MIN minutes`); the source
formats each eta as an ISO time string, modelled here by the instant itself.
`hav` abstracts `haversineDistance`. -/
def efpLoop (hav : Coord → Coord → ℚ) (nmPerMin : ℚ) :
    ℚ → Coord → List Coord → List (Coord × ℚ)
  | _, _, [] => []
  | eta, prev, next :: rest =>
    let eta2 := eta + hav prev next / nmPerMin * 60 * 1000
    (next, eta2) :: efpLoop hav nmPerMin eta2 next rest

/-- `estimateFuturePositions` of `App.tsx`: empty result when the path is
empty or the groundspeed is not positive, else the leg walk. -/
def estimateFuturePositions (hav : Coord → Coord → ℚ) (now : ℚ) (start : Coord)
    (path : List Coord) (groundspeed : ℚ) : List (Coord × ℚ) :=
  if path.length = 0 ∨ groundspeed ≤ 0 then []
  else efpLoop hav (groundspeed / 60) now start path

/-- `estimateFuturePosition` of the `TJSJArrivals` sector matrix:
`distanceNM = (ac.groundspeed || 450) * (minutesAhead / 60)` (a zero
groundspeed is falsy and becomes 450; a negative one is kept), then a
spherical dead-reckoning projection along `ac.heading` from the current
position, abstracted as `project distanceNM heading latitude longitude`. -/
def estimateFuturePosition (project : ℚ → ℚ → ℚ → ℚ → Coord) (ac : Aircraft)
    (minutesAhead : ℚ) : Coord :=
  project ((if ac.groundspeed = 0 then 450 else ac.groundspeed) * (minutesAhead / 60))
    ac.heading ac.latitude ac.longitude

theorem efpLoop_length (hav : Coord → Coord → ℚ) (nmPerMin : ℚ) :
    ∀ (path : List Coord) (eta : ℚ) (prev : Coord),
      (efpLoop hav nmPerMin eta prev path).length = path.length := by
  intro path
  induction path with
  | nil => intro eta prev; rfl
  | cons next rest ih =>
    intro eta prev
    unfold efpLoop
    rw [List.length_cons, List.length_cons, ih]

/-- **C7.** `estimateFuturePositions` (`App.tsx`) yields no positions for a
non-positive groundspeed (and, with a positive one, one position per path
point).  The dead-reckoning `estimateFuturePosition` of the `TJSJArrivals`
sector matrix does **not** skip such aircraft: a zero groundspeed is replaced
by 450 kt and a negative one is used as-is, a projected position being
returned either way. -/
theorem C7_nonpositive_groundspeed_projection (hav : Coord → Coord → ℚ) (now : ℚ)
    (start : Coord) (path : List Coord) (gs : ℚ)
    (project : ℚ → ℚ → ℚ → ℚ → Coord) (ac : Aircraft) (m : ℚ)
    (hgs : gs ≤ 0) :
    estimateFuturePositions hav now start path gs = [] ∧
    (0 < gs → (estimateFuturePositions hav now start path gs).length
        = if path.length = 0 then 0 else path.length) ∧
    (ac.groundspeed = 0 → estimateFuturePosition project ac m
        = project (450 * (m / 60)) ac.heading ac.latitude ac.longitude) ∧
    (ac.groundspeed < 0 → estimateFuturePosition project ac m
        = project (ac.groundspeed * (m / 60)) ac.heading ac.latitude ac.longitude) := by
  refine ⟨?_, ?_, ?_, ?_⟩
  · unfold estimateFuturePositions
    rw [if_pos (Or.inr hgs)]
  · intro hpos
    unfold estimateFuturePositions
    by_cases hp : path.length = 0
    · rw [if_pos (Or.inl hp), if_pos hp]
      rfl
    · rw [if_neg ?_, if_neg hp]
      · exact efpLoop_length hav (gs / 60) path now start
      · rintro (hc | hc)
        · exact hp hc
        · linarith
  · intro h0
    unfold estimateFuturePosition
    rw [if_pos h0]
  · intro hneg
    unfold estimateFuturePosition
    rw [if_neg (ne_of_lt hneg)]

/-- **C7, counterexample.** A zero-groundspeed aircraft is *not* treated as a
no-predict condition by the `TJSJArrivals` sector matrix: with the projection
abstracted as `(d, h) ↦ (d, h)` to expose its inputs, the aircraft is
projected 450 NM along its heading after 60 minutes (`groundspeed || 450`,
TJSJArrivals.tsx:280), so the projection step yields a position rather than
none. -/
theorem C7_zero_groundspeed_projects_counterexample :
    estimateFuturePosition (fun d h _ _ => (d, h))
      (Aircraft.mk "N3" 18 (-66) 5000 90 0 none) 60 = ((450 : ℚ), (90 : ℚ)) := by
  norm_num [estimateFuturePosition]

theorem C7_nonpositive_groundspeed_projection_witness :
    estimateFuturePositions (fun _ _ => 1) 0 (0, 0) [(1, 1)] 0 = [] ∧
    (0 < (0 : ℚ) → (estimateFuturePositions (fun _ _ => 1) 0 (0, 0) [(1, 1)] 0).length
        = if ([((1 : ℚ), (1 : ℚ))].length = 0) then 0 else [((1 : ℚ), (1 : ℚ))].length) ∧
    ((Aircraft.mk "N4" 18 (-66) 5000 90 0 none).groundspeed = 0 →
      estimateFuturePosition (fun d h _ _ => (d, h)) (Aircraft.mk "N4" 18 (-66) 5000 90 0 none) 30
        = (fun d h _ _ => ((d : ℚ), (h : ℚ))) (450 * (30 / 60)) 90 18 (-66)) ∧
    ((Aircraft.mk "N4" 18 (-66) 5000 90 0 none).groundspeed < 0 →
      estimateFuturePosition (fun d h _ _ => (d, h)) (Aircraft.mk "N4" 18 (-66) 5000 90 0 none) 30
        = (fun d h _ _ => ((d : ℚ), (h : ℚ))) (0 * (30 / 60)) 90 18 (-66)) :=
  C7_nonpositive_groundspeed_projection (fun _ _ => 1) 0 (0, 0) [(1, 1)] 0
    (fun d h _ _ => (d, h)) (Aircraft.mk "N4" 18 (-66) 5000 90 0 none) 30 le_rfl

/-! ## `extractRemainingRoute` (the VATSIM route-fetcher component) -/

/-- The heading test of the route fetcher (`headingMatches`, default tolerance
30): `|current − target| ≤ 30 || |current − target| ≥ 330`, with **no**
modulo. -/
def headingMatchesRF (current target : ℚ) : Bool :=
  decide (|current - target| ≤ 30) || decide (330 ≤ |current - target|)

theorem jsMod_eq_self (a n : ℚ) (h0 : 0 ≤ a) (hn : a < n) : jsMod a n = a := by
  have hnpos : 0 < n := lt_of_le_of_lt h0 hn
  have hfl : ⌊a / n⌋ = 0 := by
    rw [Int.floor_eq_zero_iff]
    constructor
    · exact div_nonneg h0 hnpos.le
    · rw [div_lt_one hnpos]
      exact hn
  unfold jsMod
  rw [hfl]
  norm_num

/-- For headings and bearings already normalised to `[0, 360)` — the aircraft
heading is reported so and `bearingBetween` ends in `(… + 360) % 360` — the
route fetcher's modulo-free test agrees with the spec's folded circular
distance. -/
theorem headingMatchesRF_eq_spec (h b : ℚ) (hh0 : 0 ≤ h) (hh : h < 360)
    (hb0 : 0 ≤ b) (hb : b < 360) :
    headingMatchesRF h b = headingMatchSpec h b := by
  rw [← headingTestApp_eq_spec]
  unfold headingMatchesRF headingTestApp
  have habs : |h - b| < 360 := abs_lt.mpr ⟨by linarith, by linarith⟩
  rw [jsMod_eq_self _ _ (abs_nonneg _) habs]

/-- A pushed route label: coordinate, token name, leg distance in NM, eta
instant (the source renders the eta as a `toUTCString` fragment, modelled by
the instant itself). -/
structure RFLabel where
  coord : Coord
  name : String
  dist : ℚ
  eta : ℚ
deriving Repr, DecidableEq

/-- The mutable state of the `extractRemainingRoute` loop. -/
structure RFState where
  path : List Coord
  labels : List RFLabel
  time : ℚ
  lastCoord : Coord
deriving Repr, DecidableEq

/-- Push one fix (or the destination): leg distance from `lastCoord`, minutes
at groundspeed `gs` (`dist·0.539957/gs·60`), eta accumulation, and the
`path`/`labels` appends.  `lastCoord` is **not** updated here — the source
updates it separately (after the airway injection, or per injected fix). -/
def rfPush (hav : Coord → Coord → ℚ) (gs : ℚ) (name : String) (coord : Coord)
    (st : RFState) : RFState :=
  let dist := hav st.lastCoord coord
  let minT := dist * 0.539957 / gs * 60
  let t2 := st.time + minT * 60000
  ⟨st.path ++ [coord], st.labels ++ [⟨coord, name, dist * 0.539957, t2⟩], t2, st.lastCoord⟩

/-- The airway-injection inner loop: each injected waypoint is pushed and then
becomes the new `lastCoord`. -/
def rfInjectLoop (hav : Coord → Coord → ℚ) (gs : ℚ) : List Fix → RFState → RFState
  | [], st => st
  | wp :: rest, st =>
    let st2 := rfPush hav gs wp.waypoint (wp.lat, wp.lon) st
    rfInjectLoop hav gs rest ⟨st2.path, st2.labels, st2.time, (wp.lat, wp.lon)⟩

/-- JavaScript `Array.findIndex`: `-1` when no element matches. -/
def jsFindIdxFix (p : Fix → Bool) (l : List Fix) : ℤ :=
  match l.findIdx? p with
  | none => -1
  | some i => (i : ℤ)

/-- The intermediate-fix injection of `extractRemainingRoute`: when the pushed
fix and the (cleaned) next token both occur on a shared airway of `routesData`
more than one position apart, the waypoints strictly between them are pushed
(in airway order, reversed when the route walks the airway backwards). -/
def rfInject (hav : Coord → Coord → ℚ) (gs : ℚ) (routesData : List (String × List Fix))
    (name cleanNext : String) (st : RFState) : RFState :=
  let matches1 := routesData.filter (fun e => e.2.any (fun w => w.waypoint == name))
  let matches2 := routesData.filter (fun e => e.2.any (fun w => w.waypoint == cleanNext))
  match matches1.find? (fun e1 => matches2.any (fun e2 => e2.1 == e1.1)) with
  | none => st
  | some shared =>
    let af := shared.2
    let idx1 := jsFindIdxFix (fun w => w.waypoint == name) af
    let idx2 := jsFindIdxFix (fun w => w.waypoint == cleanNext) af
    if idx1 ≠ -1 ∧ idx2 ≠ -1 ∧ 1 < |idx2 - idx1| then
      let slice :=
        if idx1 < idx2 then (af.drop (idx1.toNat + 1)).take (idx2 - idx1 - 1).toNat
        else ((af.drop (idx2.toNat + 1)).take (idx1 - idx2 - 1).toNat).reverse
      rfInjectLoop hav gs slice st
    else st

/-- The `for` loop of `extractRemainingRoute`.  Per token: resolve with
`lastCoord` as the duplicate tie-break anchor, skip unresolved tokens, test
the bearing **from the aircraft position** against the heading until the first
match, and from the match onward push every resolved fix (plus airway
injections), finally updating `lastCoord` to the pushed fix. -/
def extractLoop (br : ℚ → ℚ → ℚ → ℚ → ℚ) (hav : Coord → Coord → ℚ)
    (routesData : List (String × List Fix)) (lat lon heading gs : ℚ) :
    Bool → RFState → List String → Bool × RFState
  | found, st, [] => (found, st)
  | found, st, fix :: rest =>
    match getFixCoordAndName hav routesData fix (some st.lastCoord) with
    | none => extractLoop br hav routesData lat lon heading gs found st rest
    | some fd =>
      let found2 := found || headingMatchesRF heading (br lat lon fd.coord.1 fd.coord.2)
      if found2 then
        let st2 := rfPush hav gs fd.name fd.coord st
        let st3 :=
          match rest.head? with
          | none => st2
          | some nextFix => rfInject hav gs routesData fd.name (cleanFix nextFix) st2
        extractLoop br hav routesData lat lon heading gs true
          ⟨st3.path, st3.labels, st3.time, fd.coord⟩ rest
      else extractLoop br hav routesData lat lon heading gs found st rest

/-- `airportCoords[dest]`, falling back to an `airportDB[dest]` entry with
numeric coordinates (the table models exactly the well-typed entries). -/
def destCoordOf (airportCoords airportDB : List (String × Coord)) (dest : String) :
    Option Coord :=
  match airportCoords.lookup dest with
  | some c => some c
  | none => airportDB.lookup dest

/-- `isValidFix` of the route-fetcher component — distinct from the
`isValidFix` of `App.tsx`'s sector matrix: it first re-cleans the token
(`fix.split("/")[0].toUpperCase()`, with **no** `trim`), accepts **3–5**
upper-case letters (`/^[A-Z]{3,5}$/`), and otherwise one of the four literal
coordinate shapes `/^\d{2}N\d{3}W$/`, `/^\d{2}S\d{3}W$/`, `/^\d{2}N\d{3}E$/`,
`/^\d{2}S\d{3}E$/` — together exactly the upper-case
`\d{2}[NS]\d{3}[EW]` shape. -/
def isValidFixRF (fix : String) : Bool :=
  let cleaned := jsUpper ((jsSplit fix '/').headD "")
  (decide (3 ≤ cleaned.length) && decide (cleaned.length ≤ 5) &&
    cleaned.toList.all isUpperLetter) || coordShapeUpper cleaned.toList

/-- Tokenisation of the route text in `extractRemainingRoute`:
`route.split(" ").map(cleanFix).filter(isValidFix)` with the route fetcher's
**own** `isValidFix`. -/
def routeSegmentsRF (route : String) : List String :=
  ((jsSplit route ' ').map cleanFix).filter isValidFixRF

/-- The `{ path, labels, future }` record returned by
`extractRemainingRoute`. -/
structure RFResult where
  path : List Coord
  labels : List RFLabel
  future : List (Coord × ℚ)
deriving Repr, DecidableEq

/-- `extractRemainingRoute` of the route fetcher: tokenisation, the heading-
gated loop, destination augmentation (only after a heading match, and only
when the arrival resolves to coordinates), then the future-position walk. -/
def extractRemainingRoute (br : ℚ → ℚ → ℚ → ℚ → ℚ) (hav : Coord → Coord → ℚ)
    (routesData : List (String × List Fix)) (airportCoords airportDB : List (String × Coord))
    (now : ℚ) (route : String) (lat lon heading gs : ℚ) (arrival : String) : RFResult :=
  let res := extractLoop br hav routesData lat lon heading gs false
    ⟨[], [], now, (lat, lon)⟩ (routeSegmentsRF route)
  let dest := jsUpper arrival
  let st2 :=
    if res.1 then
      match destCoordOf airportCoords airportDB dest with
      | none => res.2
      | some dc => rfPush hav gs dest dc res.2
    else res.2
  ⟨st2.path, st2.labels, estimateFuturePositions hav now (lat, lon) st2.path gs⟩

/-- The trigger predicate of `extractRemainingRoute`'s one-time edge: the
token resolves — with the aircraft position as tie-break anchor, which is what
`lastCoord` still holds before the first match — and the bearing from the
aircraft position to it matches the heading. -/
def rfTrigger (br : ℚ → ℚ → ℚ → ℚ → ℚ) (hav : Coord → Coord → ℚ)
    (routesData : List (String × List Fix)) (lat lon heading : ℚ) (fix : String) : Bool :=
  match getFixCoordAndName hav routesData fix (some (lat, lon)) with
  | none => false
  | some fd => headingMatchesRF heading (br lat lon fd.coord.1 fd.coord.2)

theorem extractLoop_found_true (br : ℚ → ℚ → ℚ → ℚ → ℚ) (hav : Coord → Coord → ℚ)
    (routesData : List (String × List Fix)) (lat lon heading gs : ℚ) :
    ∀ (segs : List String) (st : RFState),
      (extractLoop br hav routesData lat lon heading gs true st segs).1 = true := by
  intro segs
  induction segs with
  | nil => intro st; rfl
  | cons fix rest ih =>
    intro st
    unfold extractLoop
    cases hres : getFixCoordAndName hav routesData fix (some st.lastCoord) with
    | none => exact ih st
    | some fd =>
      simp only [Bool.true_or, if_pos]
      exact ih _

theorem rfInjectLoop_path_mono (hav : Coord → Coord → ℚ) (gs : ℚ) :
    ∀ (l : List Fix) (st : RFState) (x : Coord),
      x ∈ st.path → x ∈ (rfInjectLoop hav gs l st).path := by
  intro l
  induction l with
  | nil => intro st x hx; exact hx
  | cons wp rest ih =>
    intro st x hx
    unfold rfInjectLoop
    apply ih
    simp only [rfPush]
    exact List.mem_append_left _ hx

theorem rfInject_path_mono (hav : Coord → Coord → ℚ) (gs : ℚ)
    (routesData : List (String × List Fix)) (name cleanNext : String) (st : RFState)
    (x : Coord) (hx : x ∈ st.path) :
    x ∈ (rfInject hav gs routesData name cleanNext st).path := by
  unfold rfInject
  dsimp only
  split
  · exact hx
  · split
    · exact rfInjectLoop_path_mono hav gs _ st x hx
    · exact hx

theorem extractLoop_path_mono (br : ℚ → ℚ → ℚ → ℚ → ℚ) (hav : Coord → Coord → ℚ)
    (routesData : List (String × List Fix)) (lat lon heading gs : ℚ) :
    ∀ (segs : List String) (b : Bool) (st : RFState) (x : Coord),
      x ∈ st.path →
      x ∈ (extractLoop br hav routesData lat lon heading gs b st segs).2.path := by
  intro segs
  induction segs with
  | nil => intro b st x hx; exact hx
  | cons fix rest ih =>
    intro b st x hx
    unfold extractLoop
    cases hres : getFixCoordAndName hav routesData fix (some st.lastCoord) with
    | none => exact ih b st x hx
    | some fd =>
      by_cases hfnd : (b || headingMatchesRF heading (br lat lon fd.coord.1 fd.coord.2)) = true
      · simp only [hfnd, if_pos]
        apply ih
        show x ∈ (match rest.head? with
          | none => rfPush hav gs fd.name fd.coord st
          | some nextFix =>
            rfInject hav gs routesData fd.name (cleanFix nextFix)
              (rfPush hav gs fd.name fd.coord st)).path
        have hpush : x ∈ (rfPush hav gs fd.name fd.coord st).path := by
          simp only [rfPush]
          exact List.mem_append_left _ hx
        cases rest.head? with
        | none => exact hpush
        | some nextFix => exact rfInject_path_mono hav gs routesData _ _ _ x hpush
      · simp only [hfnd, if_neg, Bool.false_eq_true, not_false_eq_true]
        exact ih b st x hx

theorem extractLoop_keeps_resolved (br : ℚ → ℚ → ℚ → ℚ → ℚ) (hav : Coord → Coord → ℚ)
    (routesData : List (String × List Fix)) (lat lon heading gs : ℚ)
    (fix : String) (rest : List String) (st : RFState) (fd : FixNamed)
    (hres : getFixCoordAndName hav routesData fix (some st.lastCoord) = some fd) :
    fd.coord ∈ (extractLoop br hav routesData lat lon heading gs true st (fix :: rest)).2.path := by
  unfold extractLoop
  rw [hres]
  simp only [Bool.true_or, if_pos]
  apply extractLoop_path_mono
  show fd.coord ∈ (match rest.head? with
    | none => rfPush hav gs fd.name fd.coord st
    | some nextFix =>
      rfInject hav gs routesData fd.name (cleanFix nextFix)
        (rfPush hav gs fd.name fd.coord st)).path
  have hpush : fd.coord ∈ (rfPush hav gs fd.name fd.coord st).path := by
    simp [rfPush]
  cases rest.head? with
  | none => exact hpush
  | some nextFix => exact rfInject_path_mono hav gs routesData _ _ _ _ hpush

theorem extractLoop_skip (br : ℚ → ℚ → ℚ → ℚ → ℚ) (hav : Coord → Coord → ℚ)
    (routesData : List (String × List Fix)) (lat lon heading gs : ℚ)
    (fix : String) (rest : List String) (st : RFState)
    (hst : st.lastCoord = (lat, lon))
    (hng : rfTrigger br hav routesData lat lon heading fix = false) :
    extractLoop br hav routesData lat lon heading gs false st (fix :: rest)
      = extractLoop br hav routesData lat lon heading gs false st rest := by
  unfold rfTrigger at hng
  conv_lhs => unfold extractLoop
  rw [hst]
  cases hres : getFixCoordAndName hav routesData fix (some (lat, lon)) with
  | none => simp only []
  | some fd =>
    rw [hres] at hng
    simp only [] at hng
    dsimp only
    rw [Bool.false_or, if_neg (by rw [hng]; exact Bool.false_ne_true)]

theorem extractLoop_trigger (br : ℚ → ℚ → ℚ → ℚ → ℚ) (hav : Coord → Coord → ℚ)
    (routesData : List (String × List Fix)) (lat lon heading gs : ℚ)
    (fix : String) (rest : List String) (st : RFState)
    (hst : st.lastCoord = (lat, lon))
    (hpos : rfTrigger br hav routesData lat lon heading fix = true) :
    extractLoop br hav routesData lat lon heading gs false st (fix :: rest)
      = extractLoop br hav routesData lat lon heading gs true st (fix :: rest) := by
  unfold rfTrigger at hpos
  conv_lhs => unfold extractLoop
  conv_rhs => unfold extractLoop
  rw [hst]
  cases hres : getFixCoordAndName hav routesData fix (some (lat, lon)) with
  | none => rw [hres] at hpos; simp only [] at hpos; cases hpos
  | some fd =>
    rw [hres] at hpos
    simp only [] at hpos
    simp only [Bool.false_or, Bool.true_or, hpos, if_pos]

theorem extractLoop_spec (br : ℚ → ℚ → ℚ → ℚ → ℚ) (hav : Coord → Coord → ℚ)
    (routesData : List (String × List Fix)) (lat lon heading gs : ℚ) :
    ∀ (segs : List String) (st : RFState), st.lastCoord = (lat, lon) →
      extractLoop br hav routesData lat lon heading gs false st segs
        = (segs.any (rfTrigger br hav routesData lat lon heading),
           (extractLoop br hav routesData lat lon heading gs true st
             (segs.dropWhile
               (fun f => !rfTrigger br hav routesData lat lon heading f))).2) := by
  intro segs
  induction segs with
  | nil => intro st _; rfl
  | cons fix rest ih =>
    intro st hst
    by_cases ht : rfTrigger br hav routesData lat lon heading fix = true
    · rw [List.any_cons, ht, Bool.true_or]
      rw [List.dropWhile_cons_of_neg (by simp [ht])]
      rw [extractLoop_trigger br hav routesData lat lon heading gs fix rest st hst ht]
      exact Prod.ext (extractLoop_found_true br hav routesData lat lon heading gs _ st) rfl
    · have hf : rfTrigger br hav routesData lat lon heading fix = false :=
        Bool.eq_false_iff.mpr ht
      rw [List.any_cons, hf, Bool.false_or]
      rw [List.dropWhile_cons_of_pos (by simp [hf])]
      rw [extractLoop_skip br hav routesData lat lon heading gs fix rest st hst hf]
      exact ih st hst

/-- **C1.** Both remaining-route projectors are heading-gated by a one-time
edge.  `getRemainingRoute` equals its spec-side description (resolved tokens
dropped until the first whose bearing from the current anchor passes the
folded-circular 30° test; that token and every later resolved one kept; empty
when no token ever matches).  For `extractRemainingRoute`: the trigger of a
resolved token is exactly the spec's folded-circular 30° test of its bearing
(for headings/bearings in `[0,360)`, where the code's modulo-free test
agrees), an unresolved token never triggers, the loop result is the keep-all
phase started at the first triggering token (`dropWhile` of the trigger),
once in the keep phase every resolved fix's coordinate is appended regardless
of its heading delta, and if no token ever triggers the whole result —
path, labels and future positions — is empty. -/
theorem C1_heading_gated_remaining_route (atan2deg : ℚ → ℚ → ℚ) (ac : Aircraft)
    (fixCoords : List (String × List Fix)) (br : ℚ → ℚ → ℚ → ℚ → ℚ)
    (hav : Coord → Coord → ℚ) (routesData : List (String × List Fix))
    (airportCoords airportDB : List (String × Coord)) (now : ℚ) (route : String)
    (lat lon heading gs : ℚ) (arrival : String)
    (hh0 : 0 ≤ heading) (hh : heading < 360)
    (hbr : ∀ la lo la2 lo2, 0 ≤ br la lo la2 lo2 ∧ br la lo la2 lo2 < 360) :
    getRemainingRoute atan2deg ac fixCoords = remainingRouteSpec atan2deg ac fixCoords ∧
    (∀ f fd, getFixCoordAndName hav routesData f (some (lat, lon)) = some fd →
      rfTrigger br hav routesData lat lon heading f
        = headingMatchSpec heading (br lat lon fd.coord.1 fd.coord.2)) ∧
    (∀ f, getFixCoordAndName hav routesData f (some (lat, lon)) = none →
      rfTrigger br hav routesData lat lon heading f = false) ∧
    extractLoop br hav routesData lat lon heading gs false
        ⟨[], [], now, (lat, lon)⟩ (routeSegmentsRF route)
      = ((routeSegmentsRF route).any (rfTrigger br hav routesData lat lon heading),
         (extractLoop br hav routesData lat lon heading gs true
            ⟨[], [], now, (lat, lon)⟩
            ((routeSegmentsRF route).dropWhile
              (fun f => !rfTrigger br hav routesData lat lon heading f))).2) ∧
    (∀ (st : RFState) (fix : String) (rest : List String) (fd : FixNamed),
      getFixCoordAndName hav routesData fix (some st.lastCoord) = some fd →
      fd.coord ∈
        (extractLoop br hav routesData lat lon heading gs true st (fix :: rest)).2.path) ∧
    ((∀ f ∈ routeSegmentsRF route, rfTrigger br hav routesData lat lon heading f = false) →
      extractRemainingRoute br hav routesData airportCoords airportDB now route
          lat lon heading gs arrival = ⟨[], [], []⟩) := by
  refine ⟨getRemainingRoute_eq_spec atan2deg ac fixCoords, ?_, ?_, ?_, ?_, ?_⟩
  · intro f fd hres
    unfold rfTrigger
    rw [hres]
    simp only []
    exact headingMatchesRF_eq_spec heading _ hh0 hh
      (hbr lat lon fd.coord.1 fd.coord.2).1 (hbr lat lon fd.coord.1 fd.coord.2).2
  · intro f hres
    unfold rfTrigger
    rw [hres]
  · exact extractLoop_spec br hav routesData lat lon heading gs (routeSegmentsRF route)
      ⟨[], [], now, (lat, lon)⟩ rfl
  · intro st fix rest fd hres
    exact extractLoop_keeps_resolved br hav routesData lat lon heading gs fix rest st fd hres
  · intro hnone
    unfold extractRemainingRoute
    rw [extractLoop_spec br hav routesData lat lon heading gs (routeSegmentsRF route)
      ⟨[], [], now, (lat, lon)⟩ rfl]
    have hany : (routeSegmentsRF route).any (rfTrigger br hav routesData lat lon heading)
        = false := by
      rw [List.any_eq_false]
      intro f hf
      simp [hnone f hf]
    have hdrop : (routeSegmentsRF route).dropWhile
        (fun f => !rfTrigger br hav routesData lat lon heading f) = [] := by
      rw [List.dropWhile_eq_nil_iff]
      intro f hf
      simp [hnone f hf]
    rw [hany, hdrop]
    simp [extractLoop, estimateFuturePositions]

def brC1 : ℚ → ℚ → ℚ → ℚ → ℚ := fun _ _ _ _ => 0

def havC1 : Coord → Coord → ℚ := fun _ _ => 0

def acC1 : Aircraft := Aircraft.mk "N5" 0 0 20000 0 300 none

theorem C1_heading_gated_remaining_route_witness :
    getRemainingRoute (fun _ _ => 0) acC1 [] = remainingRouteSpec (fun _ _ => 0) acC1 [] ∧
    (∀ f fd, getFixCoordAndName havC1 [] f (some (0, 0)) = some fd →
      rfTrigger brC1 havC1 [] 0 0 0 f
        = headingMatchSpec 0 (brC1 0 0 fd.coord.1 fd.coord.2)) ∧
    (∀ f, getFixCoordAndName havC1 [] f (some (0, 0)) = none →
      rfTrigger brC1 havC1 [] 0 0 0 f = false) ∧
    extractLoop brC1 havC1 [] 0 0 0 100 false
        ⟨[], [], 0, (0, 0)⟩ (routeSegmentsRF "ABC DEF")
      = ((routeSegmentsRF "ABC DEF").any (rfTrigger brC1 havC1 [] 0 0 0),
         (extractLoop brC1 havC1 [] 0 0 0 100 true ⟨[], [], 0, (0, 0)⟩
            ((routeSegmentsRF "ABC DEF").dropWhile
              (fun f => !rfTrigger brC1 havC1 [] 0 0 0 f))).2) ∧
    (∀ (st : RFState) (fix : String) (rest : List String) (fd : FixNamed),
      getFixCoordAndName havC1 [] fix (some st.lastCoord) = some fd →
      fd.coord ∈ (extractLoop brC1 havC1 [] 0 0 0 100 true st (fix :: rest)).2.path) ∧
    ((∀ f ∈ routeSegmentsRF "ABC DEF", rfTrigger brC1 havC1 [] 0 0 0 f = false) →
      extractRemainingRoute brC1 havC1 [] [] [] 0 "ABC DEF" 0 0 0 100 "TJSJ"
        = ⟨[], [], []⟩) :=
  C1_heading_gated_remaining_route (fun _ _ => 0) acC1 [] brC1 havC1 [] [] [] 0
    "ABC DEF" 0 0 0 100 "TJSJ" (by norm_num) (by norm_num)
    (fun _ _ _ _ => ⟨by norm_num [brC1], by norm_num [brC1]⟩)

end ZSU
